import Mathlib

/-!
Verification development for the SparkNo9 campaign-data engine.

This file shallowly embeds the engine's core components — the column-name
normalizer, the type inferrer, the time-anomaly scrubber, the record
preprocessor, the schema expander and the merge (upsert) executor — and
proves properties of those embeddings.

Modelling conventions:
- a pandas cell is an `Option CVal`; `none` is a missing value (NaN/None/NaT);
- the outcomes of the external pandas coercions applied to a raw cell
  (`pd.to_numeric`, `pd.to_datetime`) are carried on the cell itself as
  oracle fields, since the engine only branches on their success/failure
  and on the coerced numeric value;
- warehouse calls are modelled by outcome oracles in a `SessionEnv`, and
  each executed SQL statement is recorded in an action trace.
-/

namespace Spark

/-- The four logical column types of the preprocessor. -/
inductive ColType where
  | INT
  | FLOAT
  | DATETIME
  | STRING
deriving Repr, DecidableEq

/-- Warehouse-side types produced by `infer_snowflake_type`. -/
inductive SnowType where
  | TIMESTAMP
  | INTEGER
  | FLOAT
  | BOOLEAN
  | STRING
deriving Repr, DecidableEq

/-- A raw (object-dtype) cell value: its `str()` rendering together with the
outcomes of the two pandas coercions the source code applies to raw cells:
`numCoerce` is the value produced by `pd.to_numeric(..., errors="coerce")`
(`none` when that yields NaN) and `dtParse` is the instant produced by
`pd.to_datetime(..., errors="coerce")` (`none` when that yields NaT). -/
structure RawVal where
  s : String
  numCoerce : Option Rat
  dtParse : Option Int
deriving Repr, DecidableEq

/-- A cell value at any stage of the pipeline: an original raw value, a
numeric value produced by numeric coercion, a datetime instant produced by
datetime coercion, or a plain string produced by `astype(str)`. -/
inductive CVal where
  | raw (v : RawVal)
  | num (q : Rat)
  | dtv (t : Int)
  | strv (s : String)
deriving Repr, DecidableEq

/-- A cell: `none` is pandas' missing marker. -/
abbrev Cell := Option CVal

/-- Storage dtype of a pandas column, as discriminated by the source's
`pd.api.types.is_*_dtype` checks. -/
inductive Dtype where
  | dt64
  | int64
  | float64
  | boolean
  | obj
deriving Repr, DecidableEq

/-- A pandas Series: a storage dtype and a list of cells. -/
structure Series where
  dtype : Dtype
  cells : List Cell
deriving Repr, DecidableEq

/-- A DataFrame: a row count and an ordered list of named columns. -/
structure Table where
  nRows : Nat
  cols : List (String × Series)
deriving Repr, DecidableEq

/-- `pd.to_numeric` outcome for a cell value.  Coerced numeric cells map to
themselves; datetime and string-rendered cells are never re-coerced
numerically by the pipeline. -/
def numCoerceOf : CVal → Option Rat
  | .raw v => v.numCoerce
  | .num q => some q
  | .dtv _ => none
  | .strv _ => none

/-- `pd.to_datetime` outcome for a cell value.  Already-parsed datetime cells
map to themselves; numeric and string-rendered cells are never re-coerced
temporally by the pipeline. -/
def dtParseOf : CVal → Option Int
  | .raw v => v.dtParse
  | .num _ => none
  | .dtv t => some t
  | .strv _ => none

/-- `str()` rendering of a cell value. -/
def strOf : CVal → String
  | .raw v => v.s
  | .num q => toString q
  | .dtv t => toString t
  | .strv s => s

/-- `astype(str)` rendering of a cell: pandas renders a missing value as the
string literal form of NaN, namely `"nan"`. -/
def cellStr : Cell → String
  | none => "nan"
  | some v => strOf v

/-- ASCII decimal digit, the `\d` of the source's time regex applied to the
ASCII renderings the pipeline produces. -/
def isDigitChar (c : Char) : Bool := '0' ≤ c && c ≤ '9'

/-- Shape of the tail `:DD:DD` of the time regex, followed by the end of the
string or by one final newline (Python's `$` also matches just before a
trailing newline). -/
def timeTail : List Char → Bool
  | ':' :: a :: b :: ':' :: c :: d :: rest =>
    isDigitChar a && isDigitChar b && isDigitChar c && isDigitChar d &&
      (rest.isEmpty || rest == ['\n'])
  | _ => false

/-- The source's clock pattern `^\d{1,2}:\d{2}:\d{2}$` as used with
`Series.str.match`. -/
def matches_time (s : String) : Bool :=
  match s.data with
  | [] => false
  | c :: rest =>
    isDigitChar c &&
      (timeTail rest ||
        (match rest with
         | c2 :: rest2 => isDigitChar c2 && timeTail rest2
         | [] => false))

/-- The source's integrality test `value == value.astype(int)`: a coerced
rational equals its integer truncation exactly when its denominator is 1. -/
def is_integral (q : Rat) : Bool := q.den == 1

/-- The non-missing values of a series (`series.dropna()`). -/
def nonNullVals (s : Series) : List CVal := s.cells.filterMap id

/-- `CampaignDataProcessor._infer_column_type`: decide the intended logical
type of a column.  Native dtypes win; otherwise missing values are dropped,
an empty remainder is STRING, a numeric-coercion success count above 80%
gives INT (all coerced values integral) or FLOAT, else a temporal-coercion
success count above 80% gives DATETIME, else STRING.  The ratio test
`rate > 0.8` is `4 * total < 5 * successes` in exact arithmetic. -/
def infer_column_type (s : Series) : ColType :=
  match s.dtype with
  | .dt64 => .DATETIME
  | .int64 => .INT
  | .float64 => .FLOAT
  | .boolean => .INT
  | .obj =>
    let nonNull := nonNullVals s
    if nonNull.length = 0 then .STRING
    else
      let numericSucc := nonNull.filterMap numCoerceOf
      if 4 * nonNull.length < 5 * numericSucc.length ∧ 0 < numericSucc.length then
        if numericSucc.all is_integral then .INT else .FLOAT
      else
        let dtSucc := nonNull.filterMap dtParseOf
        if 4 * nonNull.length < 5 * dtSucc.length then .DATETIME
        else .STRING

/-- `infer_snowflake_type`: the warehouse-type variant of the inferrer used
by the schema expander; identical control flow, but boolean storage maps to
BOOLEAN and temporal data to TIMESTAMP. -/
def infer_snowflake_type (s : Series) : SnowType :=
  match s.dtype with
  | .dt64 => .TIMESTAMP
  | .int64 => .INTEGER
  | .float64 => .FLOAT
  | .boolean => .BOOLEAN
  | .obj =>
    let nonNull := nonNullVals s
    if nonNull.length = 0 then .STRING
    else
      let numericSucc := nonNull.filterMap numCoerceOf
      if 4 * nonNull.length < 5 * numericSucc.length ∧ 0 < numericSucc.length then
        if numericSucc.all is_integral then .INTEGER else .FLOAT
      else
        let dtSucc := nonNull.filterMap dtParseOf
        if 4 * nonNull.length < 5 * dtSucc.length then .TIMESTAMP
        else .STRING

/-- The SQL spelling of a warehouse type, as interpolated into ALTER TABLE. -/
def snow_type_name : SnowType → String
  | .TIMESTAMP => "TIMESTAMP"
  | .INTEGER => "INTEGER"
  | .FLOAT => "FLOAT"
  | .BOOLEAN => "BOOLEAN"
  | .STRING => "STRING"

/-- `pd.api.types.is_numeric_dtype`: integer, float and boolean storage are
numeric; datetime and object storage are not. -/
def numericDtype : Dtype → Bool
  | .int64 => true
  | .float64 => true
  | .boolean => true
  | _ => false

/-- One cell of the scrub step: a cell whose `astype(str)` rendering matches
the clock pattern is replaced by the missing marker (a missing cell renders
as `"nan"`, which never matches). -/
def cleanTimeCell (c : Cell) : Cell :=
  if matches_time (cellStr c) then none else c

/-- The scrub step on one column (`_clean_time_formatted_values`, inner
loop): skip columns already of numeric storage, otherwise clean exactly when
the inferred type is INT or FLOAT.  (The source's `if time_mask.any()` guard
only skips a no-op assignment.) -/
def clean_series (s : Series) : Series :=
  if numericDtype s.dtype then s
  else
    match infer_column_type s with
    | .INT => { s with cells := s.cells.map cleanTimeCell }
    | .FLOAT => { s with cells := s.cells.map cleanTimeCell }
    | _ => s

/-- `CampaignDataProcessor._clean_time_formatted_values`: scrub every column
of the table in place. -/
def clean_time_formatted_values (t : Table) : Table :=
  { t with cols := t.cols.map (fun p => (p.1, clean_series p.2)) }

/-- Drop elements satisfying `p` from both ends of a list (the shape of
Python's `str.strip`). -/
def stripWhile (p : Char → Bool) (l : List Char) : List Char :=
  ((l.dropWhile p).reverse.dropWhile p).reverse

/-- Python `str.strip()` on the ASCII renderings the pipeline handles. -/
def py_strip (s : String) : String :=
  String.mk (stripWhile Char.isWhitespace s.data)

/-- The character class `[a-zA-Z0-9 ]` kept by the normalizer's first
substitution. -/
def keepChar (c : Char) : Bool :=
  ('a' ≤ c && c ≤ 'z') || ('A' ≤ c && c ≤ 'Z') || ('0' ≤ c && c ≤ '9') || c == ' '

/-- ASCII lowercase letter. -/
def isLowerAlphaChar (c : Char) : Bool := 'a' ≤ c && c ≤ 'z'

/-- The alphabet of normalized column names: digits, lowercase ASCII letters
and the underscore. -/
def normOutChar (c : Char) : Bool := isDigitChar c || isLowerAlphaChar c || c == '_'

/-- Python `str.lower()` on one character, for the ASCII repertoire the
normalizer and the column labels use. -/
def pyLowerChar (c : Char) : Char :=
  if 'A' ≤ c && c ≤ 'Z' then Char.ofNat (c.toNat + 32) else c

/-- Python `str.upper()` on one character (ASCII repertoire). -/
def pyUpperChar (c : Char) : Char :=
  if 'a' ≤ c && c ≤ 'z' then Char.ofNat (c.toNat - 32) else c

/-- Python `str.lower()`. -/
def py_lower (s : String) : String := String.mk (s.data.map pyLowerChar)

/-- Python `str.upper()`. -/
def py_upper (s : String) : String := String.mk (s.data.map pyUpperChar)

/-- Worker for `collapseUnd`: the flag records whether the previous kept
character was an underscore (in which case further underscores of the same
run are dropped). -/
def collapseUndAux : Bool → List Char → List Char
  | _, [] => []
  | prevU, c :: rest =>
    if c = '_' then
      if prevU then collapseUndAux true rest
      else '_' :: collapseUndAux true rest
    else c :: collapseUndAux false rest

/-- The substitution `re.sub(r"_+", "_", ...)`: collapse every run of
underscores to a single underscore. -/
def collapseUnd (l : List Char) : List Char := collapseUndAux false l

/-- `validators.normalize_column_name`: strip surrounding whitespace, delete
every character outside `[a-zA-Z0-9 ]`, replace spaces by underscores,
lowercase, collapse runs of underscores, and strip leading and trailing
underscores.  (The source's `pd.isna` branch maps a missing label to the
empty string and is outside the string-typed domain modelled here.) -/
def normalize_column_name (name : String) : String :=
  let stripped := stripWhile Char.isWhitespace name.data
  let cleaned := stripped.filter keepChar
  let replaced := (cleaned.map (fun c => if c = ' ' then '_' else c)).map pyLowerChar
  let collapsed := collapseUnd replaced
  String.mk (stripWhile (· = '_') collapsed)

/-- Whether the table has a column of the given (exact) name. -/
def Table.hasCol (t : Table) (name : String) : Bool :=
  t.cols.any (fun p => p.1 == name)

/-- `df[name]`: the first column of the given name (default empty series,
unused when the column is present). -/
def Table.getCol (t : Table) (name : String) : Series :=
  (((t.cols.find? (fun p => p.1 == name)).map (fun p => p.2)).getD ⟨.obj, []⟩)

/-- `df[name] = series`: replace the named column in place, or append it at
the end when absent. -/
def Table.setCol (t : Table) (name : String) (s : Series) : Table :=
  if t.hasCol name then
    { t with cols := t.cols.map (fun p => if p.1 == name then (p.1, s) else p) }
  else
    { t with cols := t.cols ++ [(name, s)] }

/-- `df[names].copy()`: project the table onto the given columns, in the
given order. -/
def Table.selectCols (t : Table) (names : List String) : Table :=
  { nRows := t.nRows, cols := names.map (fun c => (c, t.getCol c)) }

/-- The empty-string cell written by the preprocessor's STRING backfill. -/
def emptyStrCell : Cell := some (.strv "")

/-- A cell is null or blank: the mask
`col.isnull() | (col.astype(str).str.strip() == "")` of the key
reconciliation step (a missing cell is caught by `isnull`; its string
rendering `"nan"` never strips to empty). -/
def isNullOrBlank (c : Cell) : Bool :=
  match c with
  | none => true
  | some v => py_strip (strOf v) == ""

/-- Row-aligned fill `df.loc[mask, a] = df.loc[mask, b]`: each null-or-blank
cell of the target takes the same row's cell of the source. -/
def fillFromOther (target src : List Cell) : List Cell :=
  List.zipWith (fun t s => if isNullOrBlank t then s else t) target src

/-- The key-reconciliation step of `preprocess_campaign_data` (the
`ad_name` / `ad_set_name` fallback chain): if exactly one of the two key
columns exists, the other is created as a copy of it; if both exist, the
null-or-blank cells of `ad_name` are filled from `ad_set_name`, then the
null-or-blank cells of `ad_set_name` are filled from the updated
`ad_name`. -/
def reconcile_keys (t : Table) : Table :=
  if ¬ t.hasCol "ad_name" ∧ t.hasCol "ad_set_name" then
    t.setCol "ad_name" (t.getCol "ad_set_name")
  else if t.hasCol "ad_name" ∧ ¬ t.hasCol "ad_set_name" then
    t.setCol "ad_set_name" (t.getCol "ad_name")
  else if t.hasCol "ad_name" ∧ t.hasCol "ad_set_name" then
    let adName := t.getCol "ad_name"
    let adSet := t.getCol "ad_set_name"
    let t1 :=
      if adName.cells.any isNullOrBlank then
        t.setCol "ad_name" ⟨adName.dtype, fillFromOther adName.cells adSet.cells⟩
      else t
    let adName1 := t1.getCol "ad_name"
    let adSet1 := t1.getCol "ad_set_name"
    if adSet1.cells.any isNullOrBlank then
      t1.setCol "ad_set_name" ⟨adSet1.dtype, fillFromOther adSet1.cells adName1.cells⟩
    else t1
  else t

/-- The backfill step: every declared column absent from the table is added,
all-missing for INT, FLOAT and DATETIME, all-empty-string for STRING,
iterating the declared schema in order. -/
def add_missing_columns (schema : List (String × ColType)) (t : Table) : Table :=
  schema.foldl
    (fun acc p =>
      if acc.hasCol p.1 then acc
      else
        match p.2 with
        | .INT => acc.setCol p.1 ⟨.obj, List.replicate acc.nRows none⟩
        | .FLOAT => acc.setCol p.1 ⟨.obj, List.replicate acc.nRows none⟩
        | .DATETIME => acc.setCol p.1 ⟨.obj, List.replicate acc.nRows none⟩
        | .STRING => acc.setCol p.1 ⟨.obj, List.replicate acc.nRows emptyStrCell⟩)
    t

/-- `pd.to_numeric(col, errors="coerce")`: each cell becomes its coerced
numeric value, unparseable and missing cells become missing; the result
storage is integer only when no cell is missing and every coerced value is
integral, floating otherwise. -/
def to_numeric_series (s : Series) : Series :=
  let cl := s.cells.map (fun c => c.bind (fun v => (numCoerceOf v).map CVal.num))
  let d :=
    if cl.any Option.isNone then Dtype.float64
    else if cl.all (fun c =>
        match c with
        | some (CVal.num q) => is_integral q
        | _ => true) then Dtype.int64
    else Dtype.float64
  ⟨d, cl⟩

/-- `pd.to_datetime(col, errors="coerce")`: unparseable and missing cells
become missing, the rest become datetime instants. -/
def to_datetime_series (s : Series) : Series :=
  ⟨.dt64, s.cells.map (fun c => c.bind (fun v => (dtParseOf v).map CVal.dtv))⟩

/-- `col.astype(str)`: every cell, missing ones included, becomes its string
rendering (a missing cell renders as the string `"nan"`). -/
def astype_str (s : Series) : Series :=
  ⟨.obj, s.cells.map (fun c => some (.strv (cellStr c)))⟩

/-- `col.fillna("")`: missing cells become the empty string. -/
def fillna_empty (s : Series) : Series :=
  ⟨s.dtype, s.cells.map (fun c =>
    match c with
    | none => emptyStrCell
    | some v => some v)⟩

/-- The source's STRING coercion `col.astype(str).fillna("")`, in that
order. -/
def coerce_string (s : Series) : Series := fillna_empty (astype_str s)

/-- The declared-column coercion step: every declared column present in the
table is coerced to its declared type, iterating the declared schema in
order. -/
def convert_expected_columns (schema : List (String × ColType)) (t : Table) : Table :=
  schema.foldl
    (fun acc p =>
      if acc.hasCol p.1 then
        match p.2 with
        | .INT => acc.setCol p.1 (to_numeric_series (acc.getCol p.1))
        | .FLOAT => acc.setCol p.1 (to_numeric_series (acc.getCol p.1))
        | .STRING => acc.setCol p.1 (coerce_string (acc.getCol p.1))
        | .DATETIME => acc.setCol p.1 (to_datetime_series (acc.getCol p.1))
      else acc)
    t

/-- `CampaignDataProcessor._process_new_columns`: every column not declared
in the expected schema has its type inferred and is coerced accordingly. -/
def process_new_columns (schema : List (String × ColType)) (t : Table) : Table :=
  let expected := schema.map (fun p => p.1)
  let newCols := (t.cols.map (fun p => p.1)).filter (fun c => ¬ expected.contains c)
  newCols.foldl
    (fun acc c =>
      match infer_column_type (acc.getCol c) with
      | .INT => acc.setCol c (to_numeric_series (acc.getCol c))
      | .FLOAT => acc.setCol c (to_numeric_series (acc.getCol c))
      | .DATETIME => acc.setCol c (to_datetime_series (acc.getCol c))
      | .STRING => acc.setCol c (coerce_string (acc.getCol c)))
    t

/-- The cells of row `i` of the table, in column order. -/
def Table.row (t : Table) (i : Nat) : List Cell :=
  t.cols.map (fun p => p.2.cells.getD i none)

/-- `df.drop_duplicates()`: keep the first occurrence of each full row. -/
def drop_duplicates (t : Table) : Table :=
  let keep := (List.range t.nRows).filter
    (fun i => (List.range i).all (fun j => ! decide (t.row j = t.row i)))
  { nRows := keep.length,
    cols := t.cols.map (fun p =>
      (p.1, ⟨p.2.dtype, keep.map (fun i => p.2.cells.getD i none)⟩)) }

set_option maxHeartbeats 1000000 in
/-- `CampaignDataProcessor.expected_campaign_columns`, in declaration
order. -/
def expected_campaign_columns : List (String × ColType) :=
  [("campaign_name", .STRING), ("ad_name", .STRING), ("ad_set_name", .STRING),
   ("ad_delivery", .STRING),
   ("starts", .DATETIME), ("ends", .DATETIME), ("reporting_starts", .DATETIME),
   ("reporting_ends", .DATETIME), ("last_significant_edit", .DATETIME),
   ("wave_number", .INT), ("attribution_setting", .STRING),
   ("amount_spent_usd", .FLOAT), ("ad_set_budget", .FLOAT),
   ("ad_set_budget_type", .STRING),
   ("bid", .FLOAT), ("bid_type", .STRING), ("cpm_usd", .FLOAT),
   ("results", .INT), ("result_indicator", .STRING), ("cost_per_result", .FLOAT),
   ("frequency", .FLOAT), ("reach", .INT), ("impressions", .INT),
   ("unique_link_clicks", .INT), ("landing_page_views", .INT),
   ("email_signups", .INT),
   ("kpv_community", .INT), ("kpv_tool", .INT), ("kpv_transformation", .INT),
   ("kpv_support", .INT), ("kpv_nohero", .INT), ("kpv_inspiration", .INT),
   ("kpv_authentic", .INT), ("kpv_nextlevel", .INT), ("kpv_nextchapter", .INT),
   ("kpv_workshop", .INT), ("kpv_openhouse", .INT),
   ("lead_openhouse", .INT), ("lead_workshop", .INT), ("lead_info", .INT),
   ("click_findout", .INT), ("click_letschat", .INT), ("click_openhouse", .INT),
   ("click_workshop", .INT), ("click_info", .INT),
   ("adds_to_cart", .INT), ("in_app_adds_to_cart", .INT),
   ("website_adds_to_cart", .INT),
   ("offline_adds_to_cart", .INT), ("meta_add_to_cart", .INT),
   ("checkouts_initiated", .INT), ("in_app_checkouts", .INT),
   ("website_checkouts", .INT),
   ("offline_checkouts", .INT), ("meta_checkouts", .INT),
   ("purchases", .INT), ("in_app_purchases", .INT), ("website_purchases", .INT),
   ("offline_purchases", .INT), ("meta_purchases", .INT),
   ("registrations_completed", .INT), ("in_app_registrations", .INT),
   ("website_registrations", .INT), ("offline_registrations", .INT),
   ("instagram_profile_visits", .INT), ("post_comments", .INT),
   ("post_reactions", .INT),
   ("post_saves", .INT), ("post_shares", .INT), ("post_engagements", .INT),
   ("video_avg_play_time", .FLOAT)]

/-- `CampaignDataProcessor.expected_naming_columns`, in declaration order. -/
def expected_naming_columns : List (String × ColType) :=
  [("ad_set_name", .STRING), ("audience", .STRING), ("concept", .STRING),
   ("position", .STRING), ("ad_descriptor", .STRING), ("ad_direction", .STRING),
   ("landing_page", .STRING)]

/-- Rename every column through the name normalizer (step 1 of both
preprocessors); pandas `rename` keeps order and does not merge labels that
collide. -/
def normalize_table_columns (t : Table) : Table :=
  { t with cols := t.cols.map (fun p => (normalize_column_name p.1, p.2)) }

/-- `CampaignDataProcessor.preprocess_campaign_data`: normalize names, scrub
time-formatted anomalies, assign the wave number, reconcile the key columns,
backfill missing declared columns, coerce declared columns, type and coerce
undeclared columns, and drop duplicate rows — in that order. -/
def preprocess_campaign_data (schema : List (String × ColType)) (t : Table)
    (wave : Int) : Table :=
  let t1 := normalize_table_columns t
  let t2 := clean_time_formatted_values t1
  let t3 := t2.setCol "wave_number"
    ⟨.int64, List.replicate t2.nRows (some (.num (wave : Rat)))⟩
  let t4 := reconcile_keys t3
  let t5 := add_missing_columns schema t4
  let t6 := convert_expected_columns schema t5
  let t7 := process_new_columns schema t6
  drop_duplicates t7

/-- `CampaignDataProcessor.preprocess_naming_data`: normalize names, assign
the wave number, backfill missing declared columns, coerce declared columns,
and drop duplicate rows — no scrubbing, no key reconciliation, no
new-column processing. -/
def preprocess_naming_data (schema : List (String × ColType)) (t : Table)
    (wave : Int) : Table :=
  let t1 := normalize_table_columns t
  let t2 := t1.setCol "wave_number"
    ⟨.int64, List.replicate t1.nRows (some (.num (wave : Rat)))⟩
  let t3 := add_missing_columns schema t2
  let t4 := convert_expected_columns schema t3
  drop_duplicates t4

/-- A staged row, aligned positionally with the staged column list. -/
abbrev MRow := List Cell

/-- SQL equality of two cell values: NULL compares unequal to everything,
including NULL (the semantics of the MERGE's ON predicate). -/
def sqlEq (a b : Cell) : Bool :=
  match a, b with
  | some x, some y => decide (x = y)
  | _, _ => false

/-- The value a row holds in the key column: the first staged column whose
lowercased name is the key (the MERGE's unquoted target identifier resolves
case-insensitively). -/
def keyVal (cols : List String) (key : String) (r : MRow) : Cell :=
  ((((cols.zip r).find? (fun p => py_lower p.1 == key)).map (fun p => p.2)).getD none)

/-- The WHEN MATCHED branch: `UPDATE SET col = source.col` for every staged
column except the key, which keeps the target row's value. -/
def update_row (cols : List String) (key : String) (target src : MRow) : MRow :=
  (cols.zip (target.zip src)).map
    (fun p => if py_lower p.1 == key then p.2.1 else p.2.2)

/-- The MERGE statement built and executed by both populate operations:
every destination row matching a source row on the key is updated from that
source row, and every source row matching no destination row is inserted. -/
def merge_rows (cols : List String) (key : String) (src dest : List MRow) :
    List MRow :=
  (dest.map (fun d =>
    match src.find? (fun s => sqlEq (keyVal cols key d) (keyVal cols key s)) with
    | some s => update_row cols key d s
    | none => d))
  ++ src.filter (fun s =>
      ! dest.any (fun d => sqlEq (keyVal cols key d) (keyVal cols key s)))

/-- One SQL statement executed against the warehouse session, as recorded in
an action trace. -/
inductive SqlAction where
  | describeTable (table : String)
  | alterAddColumn (table col ty : String)
  | currentDatabase
  | saveTempTable (table : String) (columns : List String)
  | execMerge (target temp key : String) (updateCols insertCols : List String)
  | dropTempTable (table : String)
deriving Repr, DecidableEq

/-- Outcomes of the warehouse calls an upsert invocation performs, supplied
as oracles.  `introspect1` answers the DESCRIBE issued inside the schema
expander, `introspect2` the refresh DESCRIBE issued afterwards (the table
may have gained columns in between); `none` models a raised exception.
`dropOk` is carried to state explicitly that the temp-table drop outcome is
ignored by the source (the drop failure is only logged). -/
structure SessionEnv where
  connOk : Bool
  introspect1 : Option (List String)
  introspect2 : Option (List String)
  alterOk : String → Bool
  currentDb : String
  writeOk : Bool
  mergeOk : Bool
  dropOk : Bool
  now : Cell

/-- Result message of `expand_table_schema`, one constructor per literal
message of the source. -/
inductive EMsg where
  | couldNotReadSchema (table : String)
  | upToDate
  | addedColumns (n : Nat) (table : String)
deriving Repr, DecidableEq

/-- `get_table_columns`: the lowercased first field of each DESCRIBE row; a
raised DESCRIBE is caught and yields the empty set. -/
def get_table_columns (introspectResult : Option (List String)) : List String :=
  match introspectResult with
  | some rows => (rows.map py_lower).dedup
  | none => []

/-- The set difference `df_columns - existing_columns - exclude_columns`
computed (case-insensitively) by the schema expander, in first-occurrence
order of the DataFrame's columns. -/
def expansion_new_columns (existing : List String) (df : Table)
    (excludeColumns : List String) : List String :=
  ((df.cols.map (fun p => p.1)).map py_lower).dedup.filter
    (fun c => ! existing.contains c && ! (excludeColumns.map py_lower).contains c)

/-- `expand_table_schema`: introspect the destination (empty introspection is
fatal), compute the new columns, and issue one additive ALTER TABLE ADD
COLUMN per new column, counting successes; a failed ALTER is skipped without
aborting the rest.  Returns (success, message, columns added, trace). -/
def expand_table_schema (introspectResult : Option (List String))
    (alterOk : String → Bool) (tableName : String) (df : Table)
    (excludeColumns : List String) : Bool × EMsg × Nat × List SqlAction :=
  let trace0 := [SqlAction.describeTable tableName]
  let existing := get_table_columns introspectResult
  if existing.isEmpty then (false, .couldNotReadSchema tableName, 0, trace0)
  else
    let newCols := expansion_new_columns existing df excludeColumns
    if newCols.isEmpty then (true, .upToDate, 0, trace0)
    else
      let trace := trace0 ++ newCols.map (fun c =>
        let origCol := (((df.cols.find? (fun p => py_lower p.1 == c)).map
          (fun p => p.1)).getD c)
        SqlAction.alterAddColumn tableName (py_upper c)
          (snow_type_name (infer_snowflake_type (df.getCol origCol))))
      let added := newCols.countP alterOk
      (true, .addedColumns added tableName, added, trace)

/-- Result message of the populate operations, one constructor per literal
message of the source (`errorRaised` is the outer handler's
`"Error: ..."`). -/
inductive PMsg where
  | connectionFailed
  | noMatchingColumns
  | insertedUpdated (n : Nat) (missingWarning : Option (List String))
  | errorRaised
deriving Repr, DecidableEq

/-- What an upsert invocation leaves behind: the caller's DataFrame (the
source mutates its argument in place), the success flag, the message and the
trace of executed statements. -/
structure PopulateResult where
  df : Table
  ok : Bool
  msg : PMsg
  trace : List SqlAction
deriving Repr, DecidableEq

/-- The columns of the DataFrame whose lowercased name exists in the
destination (`filtered_columns` of both populate operations). -/
def filtered_columns (existing : List String) (df : Table) : List String :=
  (df.cols.map (fun p => p.1)).filter (fun c => existing.contains (py_lower c))

/-- The columns of the DataFrame missing from the destination
(`missing_for_upload` of both populate operations). -/
def missing_for_upload (existing : List String) (df : Table) : List String :=
  (df.cols.map (fun p => p.1)).filter (fun c => ! existing.contains (py_lower c))

/-- Ensure the `wave_number` column exists on the caller's DataFrame
(`if "wave_number" not in df.columns: df["wave_number"] = wave_number`). -/
def ensure_wave_number (df : Table) (wave : Int) : Table :=
  if df.hasCol "wave_number" then df
  else df.setCol "wave_number"
    ⟨.int64, List.replicate df.nRows (some (.num (wave : Rat)))⟩

/-- Add the upload timestamp to the caller's DataFrame
(`df["upload_timestamp"] = datetime.now()`). -/
def add_upload_timestamp (now : Cell) (df : Table) : Table :=
  df.setCol "upload_timestamp" ⟨.dt64, List.replicate df.nRows now⟩

/-- The caller's DataFrame after the two in-place mutations both upsert
operations perform before writing. -/
def prepared_df (now : Cell) (df : Table) (wave : Int) : Table :=
  add_upload_timestamp now (ensure_wave_number df wave)

/-- Schema-qualified campaign destination
(`{schema_name}.{PLATFORM}_PROCESSED_CAMPAIGN_DATA`). -/
def campaign_table_name (schemaName platform : String) : String :=
  schemaName ++ "." ++ py_upper platform ++ "_PROCESSED_CAMPAIGN_DATA"

/-- Fully qualified campaign temp table
(`{db}.{schema_name}.{PLATFORM}_CAMPAIGN_DATA_TEMP_{wave}`). -/
def campaign_temp_table (db schemaName platform : String) (wave : Int) : String :=
  db ++ "." ++ schemaName ++ "." ++ py_upper platform ++ "_CAMPAIGN_DATA_TEMP_"
    ++ toString wave

/-- Fully qualified campaign destination
(`{db}.{schema_name}.{PLATFORM}_PROCESSED_CAMPAIGN_DATA`). -/
def campaign_full_table (db schemaName platform : String) : String :=
  db ++ "." ++ schemaName ++ "." ++ py_upper platform ++ "_PROCESSED_CAMPAIGN_DATA"

/-- Schema-qualified naming-keys destination
(`{schema_name}.{PLATFORM}_NAMING_KEYS`). -/
def naming_table_name (schemaName platform : String) : String :=
  schemaName ++ "." ++ py_upper platform ++ "_NAMING_KEYS"

/-- Fully qualified naming-keys temp table
(`{db}.{schema_name}.{PLATFORM}_NAMING_KEYS_TEMP_{wave}`). -/
def naming_temp_table (db schemaName platform : String) (wave : Int) : String :=
  db ++ "." ++ schemaName ++ "." ++ py_upper platform ++ "_NAMING_KEYS_TEMP_"
    ++ toString wave

/-- Fully qualified naming-keys destination
(`{db}.{schema_name}.{PLATFORM}_NAMING_KEYS`). -/
def naming_full_table (db schemaName platform : String) : String :=
  db ++ "." ++ schemaName ++ "." ++ py_upper platform ++ "_NAMING_KEYS"

/-- `populate_campaign_data_table`: ensure `wave_number` and add
`upload_timestamp` on the caller's DataFrame, expand the destination schema,
re-introspect, restrict to the column intersection (failing when it is
empty), stage the filtered rows into a temp table, MERGE on `ad_name`, and
always drop the temp table after the MERGE — whether the MERGE succeeded or
raised; the drop's own outcome is ignored.  A raised staging write or MERGE
is caught by the outer handler and surfaced as failure. -/
def populate_campaign_data_table (env : SessionEnv) (df : Table)
    (schemaName platform : String) (wave : Int) : PopulateResult :=
  if ¬ env.connOk then ⟨df, false, .connectionFailed, []⟩
  else
    let df2 := prepared_df env.now df wave
    let tableForSchema := campaign_table_name schemaName platform
    let expandRes := expand_table_schema env.introspect1 env.alterOk
      tableForSchema df2 ["upload_timestamp"]
    let trace1 := expandRes.2.2.2 ++ [SqlAction.describeTable tableForSchema]
    let existing := get_table_columns env.introspect2
    let filtered := filtered_columns existing df2
    let missing := missing_for_upload existing df2
    if filtered.isEmpty then ⟨df2, false, .noMatchingColumns, trace1⟩
    else
      let warning := if missing.isEmpty then none else some missing
      let dfF := df2.selectCols filtered
      let tempTable := campaign_temp_table env.currentDb schemaName platform wave
      let fullTable := campaign_full_table env.currentDb schemaName platform
      let trace2 := trace1 ++ [SqlAction.currentDatabase,
        SqlAction.saveTempTable tempTable filtered]
      if ¬ env.writeOk then ⟨df2, false, .errorRaised, trace2⟩
      else
        let updateCols := filtered.filter (fun c => ! (py_lower c == "ad_name"))
        let trace3 := trace2 ++
          [SqlAction.execMerge fullTable tempTable "ad_name" updateCols filtered,
           SqlAction.dropTempTable tempTable]
        if env.mergeOk then ⟨df2, true, .insertedUpdated dfF.nRows warning, trace3⟩
        else ⟨df2, false, .errorRaised, trace3⟩

/-- `populate_naming_keys_table`: the naming-keys twin of
`populate_campaign_data_table` — same structure, destination
`{PLATFORM}_NAMING_KEYS`, MERGE keyed on `ad_set_name`. -/
def populate_naming_keys_table (env : SessionEnv) (df : Table)
    (schemaName platform : String) (wave : Int) : PopulateResult :=
  if ¬ env.connOk then ⟨df, false, .connectionFailed, []⟩
  else
    let df2 := prepared_df env.now df wave
    let tableForSchema := naming_table_name schemaName platform
    let expandRes := expand_table_schema env.introspect1 env.alterOk
      tableForSchema df2 ["upload_timestamp"]
    let trace1 := expandRes.2.2.2 ++ [SqlAction.describeTable tableForSchema]
    let existing := get_table_columns env.introspect2
    let filtered := filtered_columns existing df2
    let missing := missing_for_upload existing df2
    if filtered.isEmpty then ⟨df2, false, .noMatchingColumns, trace1⟩
    else
      let warning := if missing.isEmpty then none else some missing
      let dfF := df2.selectCols filtered
      let tempTable := naming_temp_table env.currentDb schemaName platform wave
      let fullTable := naming_full_table env.currentDb schemaName platform
      let trace2 := trace1 ++ [SqlAction.currentDatabase,
        SqlAction.saveTempTable tempTable filtered]
      if ¬ env.writeOk then ⟨df2, false, .errorRaised, trace2⟩
      else
        let updateCols := filtered.filter (fun c => ! (py_lower c == "ad_set_name"))
        let trace3 := trace2 ++
          [SqlAction.execMerge fullTable tempTable "ad_set_name" updateCols filtered,
           SqlAction.dropTempTable tempTable]
        if env.mergeOk then ⟨df2, true, .insertedUpdated dfF.nRows warning, trace3⟩
        else ⟨df2, false, .errorRaised, trace3⟩

/-- Sample raw table for the concrete scrub-then-coerce scenario: an ad-name
column and an undeclared metric column holding five integer-looking strings
and one clock-formatted string. -/
def sample_campaign_table : Table :=
  { nRows := 6,
    cols :=
      [("Ad Name", ⟨.obj,
        [some (.raw ⟨"a1", none, none⟩), some (.raw ⟨"a2", none, none⟩),
         some (.raw ⟨"a3", none, none⟩), some (.raw ⟨"a4", none, none⟩),
         some (.raw ⟨"a5", none, none⟩), some (.raw ⟨"a6", none, none⟩)]⟩),
       ("Bonus Metric", ⟨.obj,
        [some (.raw ⟨"1", some 1, none⟩), some (.raw ⟨"2", some 2, none⟩),
         some (.raw ⟨"3", some 3, none⟩), some (.raw ⟨"4", some 4, none⟩),
         some (.raw ⟨"5", some 5, none⟩),
         some (.raw ⟨"0:00:00", none, some 0⟩)]⟩)] }

/-!  ## Theorems  -/

theorem ratio_gt (a b : Nat) (hb : 0 < b) :
    ((4 / 5 : ℚ) < (a : ℚ) / (b : ℚ)) ↔ 4 * b < 5 * a := by
  rw [div_lt_div_iff₀ (by norm_num) (by exact_mod_cast hb)]
  rw [show ((4 : ℚ) * b = ((4 * b : ℕ) : ℚ)) by push_cast; ring,
      show ((a : ℚ) * 5 = ((5 * a : ℕ) : ℚ)) by push_cast; ring]
  exact Nat.cast_lt

theorem all_integral_iff (l : List Rat) :
    l.all is_integral = true ↔ ∀ q ∈ l, q.den = 1 := by
  simp [List.all_eq_true, is_integral]

/-- Claim C3: for every column that is not natively temporal, integer, float
or boolean, the type inferrer drops missing entries and returns STRING when
none remain; otherwise, when the numerically coercible fraction exceeds 0.8
it returns INT exactly when every successfully coerced value has zero
fractional part and FLOAT otherwise; only when the numeric ratio is not
above 0.8 does it try temporal coercion with the same threshold for
DATETIME, returning STRING in all remaining cases. -/
theorem c3_type_inferrer (s : Series)
    (hnative : s.dtype ≠ Dtype.dt64 ∧ s.dtype ≠ Dtype.int64 ∧
      s.dtype ≠ Dtype.float64 ∧ s.dtype ≠ Dtype.boolean) :
    (nonNullVals s = [] → infer_column_type s = ColType.STRING) ∧
    (nonNullVals s ≠ [] →
      ((4 / 5 : ℚ) < (((nonNullVals s).filterMap numCoerceOf).length : ℚ) /
          ((nonNullVals s).length : ℚ) →
        infer_column_type s =
          if ∀ q ∈ (nonNullVals s).filterMap numCoerceOf, q.den = 1
          then ColType.INT else ColType.FLOAT) ∧
      (¬ ((4 / 5 : ℚ) < (((nonNullVals s).filterMap numCoerceOf).length : ℚ) /
          ((nonNullVals s).length : ℚ)) →
        infer_column_type s =
          if (4 / 5 : ℚ) < (((nonNullVals s).filterMap dtParseOf).length : ℚ) /
              ((nonNullVals s).length : ℚ)
          then ColType.DATETIME else ColType.STRING)) := by
  obtain ⟨h1, h2, h3, h4⟩ := hnative
  obtain ⟨d, cells⟩ := s
  cases d <;> simp_all
  constructor
  · intro hempty
    simp [infer_column_type, hempty]
  · intro hne
    have hlen : 0 < (nonNullVals ⟨Dtype.obj, cells⟩).length :=
      List.length_pos.mpr hne
    constructor
    · intro hgt
      rw [ratio_gt _ _ hlen] at hgt
      have hpos : 0 < ((nonNullVals ⟨Dtype.obj, cells⟩).filterMap numCoerceOf).length := by
        omega
      rw [infer_column_type]
      simp only [if_neg (by omega : ¬ (nonNullVals ⟨Dtype.obj, cells⟩).length = 0),
        if_pos (And.intro hgt hpos)]
      by_cases hall : ∀ q ∈ (nonNullVals ⟨Dtype.obj, cells⟩).filterMap numCoerceOf,
          q.den = 1
      · rw [if_pos ((all_integral_iff _).mpr hall), if_pos hall]
      · rw [if_neg (fun hc => hall ((all_integral_iff _).mp hc)), if_neg hall]
    · intro hngt
      have hngt' : ¬ (4 * (nonNullVals ⟨Dtype.obj, cells⟩).length <
          5 * ((nonNullVals ⟨Dtype.obj, cells⟩).filterMap numCoerceOf).length) :=
        fun hc => absurd ((ratio_gt _ _ hlen).mpr hc) (not_lt.mpr hngt)
      rw [infer_column_type]
      simp only [if_neg (by omega : ¬ (nonNullVals ⟨Dtype.obj, cells⟩).length = 0)]
      rw [if_neg (fun hc => hngt' (And.left hc))]
      by_cases hdt : (4 / 5 : ℚ) <
          (((nonNullVals ⟨Dtype.obj, cells⟩).filterMap dtParseOf).length : ℚ) /
            ((nonNullVals ⟨Dtype.obj, cells⟩).length : ℚ)
      · rw [if_pos ((ratio_gt _ _ hlen).mp hdt), if_pos hdt]
      · rw [if_neg (fun hc => hdt ((ratio_gt _ _ hlen).mpr hc)), if_neg hdt]

/-- Witness for C3 at a one-cell column holding the numeric string "7". -/
theorem c3_witness :
    infer_column_type ⟨Dtype.obj, [some (CVal.raw ⟨"7", some 7, none⟩)]⟩ =
      ColType.INT := by
  have h := c3_type_inferrer ⟨Dtype.obj, [some (CVal.raw ⟨"7", some 7, none⟩)]⟩
    ⟨by decide, by decide, by decide, by decide⟩
  have h2 := (h.2 (by decide)).1 (by
    show (4 / 5 : ℚ) < (1 : ℚ) / (1 : ℚ)
    norm_num)
  rw [if_pos (by decide)] at h2
  exact h2

theorem char_eq_iff {a b : Char} : a = b ↔ a.toNat = b.toNat :=
  ⟨fun h => by rw [h], fun h => Char.eq_of_val_eq (UInt32.toNat.inj h)⟩

theorem char_le_iff {a b : Char} : a ≤ b ↔ a.toNat ≤ b.toNat := Iff.rfl

theorem toNat_ofNat_valid (n : Nat) (h : n < 55296) : (Char.ofNat n).toNat = n := by
  rw [Char.ofNat, dif_pos (Or.inl (show n < 55296 from h))]
  rfl

theorem toNat_pyLowerChar_of_upper {c : Char} (h1 : 'A' ≤ c) (h2 : c ≤ 'Z') :
    (pyLowerChar c).toNat = c.toNat + 32 := by
  have h2' : c.toNat ≤ 90 := char_le_iff.mp h2
  unfold pyLowerChar
  rw [if_pos (by simp [h1, h2])]
  exact toNat_ofNat_valid _ (by omega)

theorem pyLowerChar_eq_self {c : Char} (h : ¬ ('A' ≤ c ∧ c ≤ 'Z')) :
    pyLowerChar c = c := by
  unfold pyLowerChar
  rw [if_neg]
  simpa using h

theorem normStep_out {c : Char} (h : keepChar c = true) :
    normOutChar (pyLowerChar (if c = ' ' then '_' else c)) = true := by
  simp only [keepChar, Bool.or_eq_true, Bool.and_eq_true, decide_eq_true_eq,
    beq_iff_eq] at h
  rcases h with ((hl | hu) | hd) | hs
  · have t1 : 97 ≤ c.toNat := char_le_iff.mp hl.1
    have t2 : c.toNat ≤ 122 := char_le_iff.mp hl.2
    rw [if_neg (fun he => by rw [char_eq_iff] at he; simp at he; omega)]
    rw [pyLowerChar_eq_self (fun hu' => by
      have := char_le_iff.mp hu'.2; simp at this; omega)]
    simp only [normOutChar, isLowerAlphaChar, Bool.or_eq_true, Bool.and_eq_true,
      decide_eq_true_eq]
    exact Or.inl (Or.inr ⟨char_le_iff.mpr (by simp; omega),
      char_le_iff.mpr (by simp; omega)⟩)
  · have t1 : 65 ≤ c.toNat := char_le_iff.mp hu.1
    have t2 : c.toNat ≤ 90 := char_le_iff.mp hu.2
    rw [if_neg (fun he => by rw [char_eq_iff] at he; simp at he; omega)]
    have hlow := toNat_pyLowerChar_of_upper hu.1 hu.2
    simp only [normOutChar, isLowerAlphaChar, Bool.or_eq_true, Bool.and_eq_true,
      decide_eq_true_eq]
    exact Or.inl (Or.inr ⟨char_le_iff.mpr (by simp [hlow]; omega),
      char_le_iff.mpr (by simp [hlow]; omega)⟩)
  · have t1 : 48 ≤ c.toNat := char_le_iff.mp hd.1
    have t2 : c.toNat ≤ 57 := char_le_iff.mp hd.2
    rw [if_neg (fun he => by rw [char_eq_iff] at he; simp at he; omega)]
    rw [pyLowerChar_eq_self (fun hu' => by
      have := char_le_iff.mp hu'.1; simp at this; omega)]
    simp only [normOutChar, isDigitChar, Bool.or_eq_true, Bool.and_eq_true,
      decide_eq_true_eq]
    exact Or.inl (Or.inl ⟨char_le_iff.mpr (by simp; omega),
      char_le_iff.mpr (by simp; omega)⟩)
  · subst hs
    decide

theorem mem_dropWhile {p : Char → Bool} {l : List Char} {c : Char}
    (h : c ∈ l.dropWhile p) : c ∈ l := by
  induction l with
  | nil => simp at h
  | cons a l ih =>
    rw [List.dropWhile_cons] at h
    by_cases hp : p a = true
    · rw [if_pos hp] at h
      exact List.mem_cons_of_mem a (ih h)
    · rw [if_neg hp] at h
      exact h

theorem mem_stripWhile {p : Char → Bool} {l : List Char} {c : Char}
    (h : c ∈ stripWhile p l) : c ∈ l := by
  unfold stripWhile at h
  rw [List.mem_reverse] at h
  have h2 := mem_dropWhile h
  rw [List.mem_reverse] at h2
  exact mem_dropWhile h2

theorem mem_collapseUndAux {l : List Char} {c : Char} :
    ∀ b, c ∈ collapseUndAux b l → c ∈ l := by
  induction l with
  | nil => intro b h; simp [collapseUndAux] at h
  | cons a l ih =>
    intro b h
    rw [collapseUndAux] at h
    by_cases ha : a = '_'
    · rw [if_pos ha] at h
      by_cases hb : b = true
      · subst hb
        simp only [if_pos rfl] at h
        exact List.mem_cons_of_mem a (ih true h)
      · rw [Bool.not_eq_true] at hb
        subst hb
        simp only [Bool.false_eq_true, if_neg] at h
        rcases List.mem_cons.mp h with h1 | h1
        · subst h1; subst ha; exact List.mem_cons_self _ _
        · exact List.mem_cons_of_mem a (ih true h1)
    · rw [if_neg ha] at h
      rcases List.mem_cons.mp h with h1 | h1
      · subst h1; exact List.mem_cons_self _ _
      · exact List.mem_cons_of_mem a (ih false h1)

theorem normalize_chars {x : String} {c : Char}
    (h : c ∈ (normalize_column_name x).data) : normOutChar c = true := by
  unfold normalize_column_name at h
  have h1 := mem_collapseUndAux _ (mem_stripWhile h)
  simp only [List.map_map, List.mem_map] at h1
  obtain ⟨c', hc', rfl⟩ := h1
  exact normStep_out (List.of_mem_filter hc')

theorem normalize_no_space {x : String} : ' ' ∉ (normalize_column_name x).data :=
  fun h => absurd (normalize_chars h) (by decide)

theorem normalize_no_underscore {s : String} (hs : ' ' ∉ s.data) :
    '_' ∉ (normalize_column_name s).data := by
  intro h
  unfold normalize_column_name at h
  have h1 := mem_collapseUndAux _ (mem_stripWhile h)
  simp only [List.map_map, List.mem_map] at h1
  obtain ⟨c', hc', heq⟩ := h1
  have hkeep := List.of_mem_filter hc'
  have hmem : c' ∈ s.data := mem_stripWhile (List.mem_of_mem_filter hc')
  have hne : c' ≠ ' ' := fun he => hs (he ▸ hmem)
  simp only [Function.comp_apply] at heq
  rw [if_neg hne] at heq
  by_cases hu : 'A' ≤ c' ∧ c' ≤ 'Z'
  · have hthis := toNat_pyLowerChar_of_upper hu.1 hu.2
    rw [heq] at hthis
    have t1 : 65 ≤ c'.toNat := char_le_iff.mp hu.1
    have h95 : ('_').toNat = 95 := by decide
    rw [h95] at hthis
    omega
  · rw [pyLowerChar_eq_self hu] at heq
    subst heq
    simp [keepChar] at hkeep

theorem dropWhile_eq_self_of_all {p : Char → Bool} {l : List Char}
    (h : ∀ c ∈ l, p c = false) : l.dropWhile p = l := by
  cases l with
  | nil => rfl
  | cons a l =>
    rw [List.dropWhile_cons, if_neg]
    rw [h a (List.mem_cons_self a l)]
    simp

theorem stripWhile_eq_self_of_all {p : Char → Bool} {l : List Char}
    (h : ∀ c ∈ l, p c = false) : stripWhile p l = l := by
  unfold stripWhile
  rw [dropWhile_eq_self_of_all h,
    dropWhile_eq_self_of_all (fun c hc => h c (List.mem_reverse.mp hc)),
    List.reverse_reverse]

theorem collapseUndAux_eq_self {l : List Char} (h : ∀ c ∈ l, c ≠ '_') :
    ∀ b, collapseUndAux b l = l := by
  induction l with
  | nil => intro b; rfl
  | cons a l ih =>
    intro b
    rw [collapseUndAux, if_neg (h a (List.mem_cons_self a l))]
    rw [ih (fun c hc => h c (List.mem_cons_of_mem a hc)) false]

theorem normalize_fixed {s : String}
    (hout : ∀ c ∈ s.data, normOutChar c = true)
    (hund : '_' ∉ s.data) : normalize_column_name s = s := by
  have hdl : ∀ c ∈ s.data, (isDigitChar c = true ∨ isLowerAlphaChar c = true) := by
    intro c hc
    have h1 := hout c hc
    simp only [normOutChar, Bool.or_eq_true, beq_iff_eq] at h1
    rcases h1 with (h1 | h1) | h1
    · exact Or.inl h1
    · exact Or.inr h1
    · exact absurd (h1 ▸ hc) hund
  have hnum : ∀ c ∈ s.data, (48 ≤ c.toNat ∧ c.toNat ≤ 57) ∨
      (97 ≤ c.toNat ∧ c.toNat ≤ 122) := by
    intro c hc
    rcases hdl c hc with h1 | h1
    · simp only [isDigitChar, Bool.and_eq_true, decide_eq_true_eq] at h1
      exact Or.inl ⟨by have := char_le_iff.mp h1.1; simpa using this,
        by have := char_le_iff.mp h1.2; simpa using this⟩
    · simp only [isLowerAlphaChar, Bool.and_eq_true, decide_eq_true_eq] at h1
      exact Or.inr ⟨by have := char_le_iff.mp h1.1; simpa using this,
        by have := char_le_iff.mp h1.2; simpa using this⟩
  show String.mk (stripWhile (fun x => decide (x = '_')) (collapseUnd
    (List.map pyLowerChar (List.map (fun c => if c = ' ' then '_' else c)
      (List.filter keepChar (stripWhile Char.isWhitespace s.data)))))) = s
  have hstrip1 : stripWhile Char.isWhitespace s.data = s.data := by
    refine stripWhile_eq_self_of_all (fun c hc => ?_)
    rcases hnum c hc with h1 | h1 <;>
    · simp only [Char.isWhitespace, Bool.or_eq_false_iff]
      refine ⟨⟨⟨?_, ?_⟩, ?_⟩, ?_⟩ <;>
      · simp only [decide_eq_false_iff_not]
        intro he
        rw [char_eq_iff] at he
        simp at he
        omega
  have hfilter : List.filter keepChar s.data = s.data := by
    refine List.filter_eq_self.mpr (fun c hc => ?_)
    rcases hnum c hc with h1 | h1
    · simp only [keepChar, Bool.or_eq_true, Bool.and_eq_true, decide_eq_true_eq]
      exact Or.inl (Or.inr ⟨char_le_iff.mpr (by simp; omega),
        char_le_iff.mpr (by simp; omega)⟩)
    · simp only [keepChar, Bool.or_eq_true, Bool.and_eq_true, decide_eq_true_eq]
      exact Or.inl (Or.inl (Or.inl ⟨char_le_iff.mpr (by simp; omega),
        char_le_iff.mpr (by simp; omega)⟩))
  have hstep : List.map (fun c => if c = ' ' then '_' else c) s.data = s.data := by
    have hcong := List.map_congr_left (l := s.data)
      (f := fun c => if c = ' ' then '_' else c)
      (g := (id : Char → Char)) (fun c hc => by
        show (if c = ' ' then '_' else c) = c
        rcases hnum c hc with h1 | h1 <;>
        · rw [if_neg (fun he => by rw [char_eq_iff] at he; simp at he; omega)])
    rw [hcong, List.map_id]
  have hlower : List.map pyLowerChar s.data = s.data := by
    have hcong := List.map_congr_left (l := s.data)
      (f := pyLowerChar)
      (g := (id : Char → Char)) (fun c hc => by
        show pyLowerChar c = c
        rcases hnum c hc with h1 | h1 <;>
        · rw [pyLowerChar_eq_self (fun hu => by
            have u1 := char_le_iff.mp hu.1
            have u2 := char_le_iff.mp hu.2
            simp at u1 u2
            omega)])
    rw [hcong, List.map_id]
  have hcoll : collapseUnd s.data = s.data :=
    collapseUndAux_eq_self (fun c hc he => hund (he ▸ hc)) false
  have hstrip2 : stripWhile (fun x => decide (x = '_')) s.data = s.data := by
    refine stripWhile_eq_self_of_all (fun c hc => ?_)
    simp only [decide_eq_false_iff_not]
    exact fun he => hund (he ▸ hc)
  rw [hstrip1, hfilter, hstep, hlower, hcoll, hstrip2]

/-- Claim C4 counterexample: normalizing the already-normalized form of
"Ad Set Name!!" does not return it unchanged — the second pass deletes the
underscores — so the normalizer is not idempotent as claimed. -/
theorem c4_counterexample :
    normalize_column_name (normalize_column_name "Ad Set Name!!") ≠
      normalize_column_name "Ad Set Name!!" := by decide

/-- Claim C4 (amended): `normalize_column_name "Ad Set Name!!"` is
"ad_set_name", and a normalized name is a fixed point of the normalizer
exactly when it contains no underscore (a second pass deletes underscores,
because the character-class substitution keeps only letters, digits and
spaces). -/
theorem c4_normalizer :
    (∀ x : String,
      normalize_column_name (normalize_column_name x) = normalize_column_name x ↔
        '_' ∉ (normalize_column_name x).data) ∧
    normalize_column_name "Ad Set Name!!" = "ad_set_name" := by
  constructor
  · intro x
    constructor
    · intro heq hmem
      have h2 := normalize_no_underscore (normalize_no_space (x := x))
      rw [heq] at h2
      exact h2 hmem
    · intro hund
      exact normalize_fixed (fun c hc => normalize_chars hc) hund
  · decide


theorem getD_map_cell {f : Cell → Cell} (hf : f none = none) (l : List Cell)
    (i : Nat) : (l.map f).getD i none = f (l.getD i none) := by
  rw [List.getD_eq_getElem?_getD, List.getD_eq_getElem?_getD, List.getElem?_map]
  cases h : l[i]? with
  | none => simp [hf]
  | some a => simp

theorem clean_series_eq_map {s : Series} (hn : numericDtype s.dtype = false)
    (he : infer_column_type s = ColType.INT ∨ infer_column_type s = ColType.FLOAT) :
    clean_series s = { s with cells := s.cells.map cleanTimeCell } := by
  unfold clean_series
  rw [if_neg (by simp [hn])]
  rcases he with he | he <;> rw [he]

set_option maxRecDepth 10000 in
set_option maxHeartbeats 4000000 in
/-- Claim C5: the scrubber replaces, in place, exactly the cells whose string
form matches the clock pattern with the missing marker, and does so only in
columns that are not natively numeric and whose inferred type is INT or
FLOAT; concretely, running the full campaign preprocessing on a table whose
undeclared metric column holds five integer strings and one "0:00:00" leaves
that cell NULL while the column's final storage is numeric, not string. -/
theorem c5_anomaly_scrubber :
    (∀ t : Table, (clean_time_formatted_values t).nRows = t.nRows ∧
      ∀ i : Nat, (clean_time_formatted_values t).cols.getD i ("", ⟨Dtype.obj, []⟩) =
        ((t.cols.getD i ("", ⟨Dtype.obj, []⟩)).1,
          clean_series (t.cols.getD i ("", ⟨Dtype.obj, []⟩)).2)) ∧
    (∀ s : Series, numericDtype s.dtype = true → clean_series s = s) ∧
    (∀ s : Series, infer_column_type s ≠ ColType.INT →
      infer_column_type s ≠ ColType.FLOAT → clean_series s = s) ∧
    (∀ s : Series, numericDtype s.dtype = false →
      (infer_column_type s = ColType.INT ∨ infer_column_type s = ColType.FLOAT) →
      (clean_series s).dtype = s.dtype ∧
      ∀ i : Nat, (clean_series s).cells.getD i none =
        (if matches_time (cellStr (s.cells.getD i none)) = true then none
         else s.cells.getD i none)) ∧
    ((preprocess_campaign_data expected_campaign_columns sample_campaign_table
        1).getCol "bonus_metric" =
      ⟨Dtype.float64, [some (CVal.num 1), some (CVal.num 2), some (CVal.num 3),
        some (CVal.num 4), some (CVal.num 5), none]⟩ ∧
      numericDtype ((preprocess_campaign_data expected_campaign_columns
        sample_campaign_table 1).getCol "bonus_metric").dtype = true) := by
  refine ⟨?_, ?_, ?_, ?_, ?_⟩
  · intro t
    refine ⟨rfl, fun i => ?_⟩
    unfold clean_time_formatted_values
    by_cases h : i < t.cols.length
    · rw [List.getD_eq_getElem?_getD, List.getD_eq_getElem?_getD, List.getElem?_map,
        List.getElem?_eq_getElem h]
      rfl
    · rw [List.getD_eq_getElem?_getD, List.getD_eq_getElem?_getD, List.getElem?_map,
        List.getElem?_eq_none (by simpa using Nat.le_of_not_lt h)]
      show ("", ⟨Dtype.obj, []⟩) = (("" : String), clean_series ⟨Dtype.obj, []⟩)
      decide
  · intro s h
    unfold clean_series
    rw [if_pos h]
  · intro s h1 h2
    unfold clean_series
    by_cases hn : numericDtype s.dtype = true
    · rw [if_pos hn]
    · rw [if_neg hn]
      cases hinf : infer_column_type s with
      | INT => exact absurd hinf h1
      | FLOAT => exact absurd hinf h2
      | DATETIME => rfl
      | STRING => rfl
  · intro s hn he
    rw [clean_series_eq_map hn he]
    refine ⟨rfl, fun i => ?_⟩
    show (s.cells.map cleanTimeCell).getD i none = _
    rw [getD_map_cell (by decide)]
    rfl
  · have h : (preprocess_campaign_data expected_campaign_columns
        sample_campaign_table 1).getCol "bonus_metric" =
      ⟨Dtype.float64, [some (CVal.num 1), some (CVal.num 2), some (CVal.num 3),
        some (CVal.num 4), some (CVal.num 5), none]⟩ := by decide
    exact ⟨h, by rw [h]; rfl⟩

/-- Witness for C5: scrubbing a column of five numeric strings and one
"0:00:00" cell nulls exactly the clock-formatted cell. -/
theorem c5_witness :
    (clean_series ⟨Dtype.obj,
      [some (CVal.raw ⟨"1", some 1, none⟩), some (CVal.raw ⟨"2", some 2, none⟩),
       some (CVal.raw ⟨"3", some 3, none⟩), some (CVal.raw ⟨"4", some 4, none⟩),
       some (CVal.raw ⟨"5", some 5, none⟩),
       some (CVal.raw ⟨"0:00:00", none, some 0⟩)]⟩).cells.getD 5 none = none ∧
    (clean_series ⟨Dtype.obj,
      [some (CVal.raw ⟨"1", some 1, none⟩), some (CVal.raw ⟨"2", some 2, none⟩),
       some (CVal.raw ⟨"3", some 3, none⟩), some (CVal.raw ⟨"4", some 4, none⟩),
       some (CVal.raw ⟨"5", some 5, none⟩),
       some (CVal.raw ⟨"0:00:00", none, some 0⟩)]⟩).cells.getD 0 none =
      some (CVal.raw ⟨"1", some 1, none⟩) := by
  have h4 := c5_anomaly_scrubber.2.2.2.1 ⟨Dtype.obj,
      [some (CVal.raw ⟨"1", some 1, none⟩), some (CVal.raw ⟨"2", some 2, none⟩),
       some (CVal.raw ⟨"3", some 3, none⟩), some (CVal.raw ⟨"4", some 4, none⟩),
       some (CVal.raw ⟨"5", some 5, none⟩),
       some (CVal.raw ⟨"0:00:00", none, some 0⟩)]⟩ (by decide)
    (Or.inl (by decide))
  constructor
  · have h5 := h4.2 5
    rw [if_pos (by decide)] at h5
    exact h5
  · have h0 := h4.2 0
    rw [if_neg (by decide)] at h0
    exact h0



theorem find?_map_replace (l : List (String × Series)) (n : String) (s : Series)
    (h : l.any (fun p => p.1 == n) = true) :
    ((l.map (fun p => if p.1 == n then (p.1, s) else p)).find?
      (fun p => p.1 == n)).map (fun p => p.2) = some s := by
  induction l with
  | nil => simp at h
  | cons a l ih =>
    by_cases ha : (a.1 == n) = true
    · rw [List.map_cons, if_pos ha,
        List.find?_cons_of_pos (p := fun q : String × Series => q.1 == n) _
          (show ((a.1, s).1 == n) = true from ha)]
      rfl
    · rw [List.map_cons, if_neg ha,
        List.find?_cons_of_neg (p := fun q : String × Series => q.1 == n) _ ha]
      apply ih
      simp only [List.any_cons, Bool.or_eq_true] at h
      rcases h with h | h
      · exact absurd h ha
      · exact h

theorem find?_map_replace_other (l : List (String × Series)) {n m : String}
    (s : Series) (hnm : (m == n) = false) :
    (l.map (fun p => if p.1 == n then (p.1, s) else p)).find? (fun p => p.1 == m)
      = l.find? (fun p => p.1 == m) := by
  induction l with
  | nil => rfl
  | cons a l ih =>
    rw [List.map_cons]
    by_cases han : (a.1 == n) = true
    · rw [if_pos han]
      by_cases ham : (a.1 == m) = true
      · have h1 : a.1 = n := by simpa using han
        have h2 : a.1 = m := by simpa using ham
        have : (m == n) = true := by rw [← h2, h1]; simp
        rw [this] at hnm
        simp at hnm
      · rw [List.find?_cons_of_neg (p := fun q : String × Series => q.1 == m) _
            (show ¬ (((a.1, s).1 == m) = true) from ham),
          List.find?_cons_of_neg (p := fun q : String × Series => q.1 == m) _ ham]
        exact ih
    · rw [if_neg han]
      by_cases ham : (a.1 == m) = true
      · rw [List.find?_cons_of_pos (p := fun q : String × Series => q.1 == m) _ ham,
          List.find?_cons_of_pos (p := fun q : String × Series => q.1 == m) _ ham]
      · rw [List.find?_cons_of_neg (p := fun q : String × Series => q.1 == m) _ ham,
          List.find?_cons_of_neg (p := fun q : String × Series => q.1 == m) _ ham]
        exact ih

theorem getCol_setCol_same (t : Table) (n : String) (s : Series) :
    (t.setCol n s).getCol n = s := by
  unfold Table.setCol
  by_cases h : t.hasCol n = true
  · rw [if_pos h]
    unfold Table.getCol
    have hr := find?_map_replace t.cols n s h
    show ((List.find? _ _).map _).getD _ = s
    rw [hr]
    rfl
  · rw [if_neg h]
    unfold Table.getCol
    show (((t.cols ++ [(n, s)]).find? (fun p => p.1 == n)).map _).getD _ = s
    rw [List.find?_append]
    have hnone : t.cols.find? (fun p => p.1 == n) = none := by
      rw [List.find?_eq_none]
      intro x hx hpx
      exact h (List.any_eq_true.mpr ⟨x, hx, hpx⟩)
    rw [hnone]
    simp

theorem getCol_setCol_other (t : Table) {n m : String} (s : Series)
    (hnm : (m == n) = false) : (t.setCol n s).getCol m = t.getCol m := by
  unfold Table.setCol
  by_cases h : t.hasCol n = true
  · rw [if_pos h]
    unfold Table.getCol
    show ((List.find? _ _).map _).getD _ = _
    rw [find?_map_replace_other t.cols s hnm]
  · rw [if_neg h]
    unfold Table.getCol
    show (((t.cols ++ [(n, s)]).find? (fun p => p.1 == m)).map _).getD _ = _
    rw [List.find?_append]
    have hlast : List.find? (fun p => p.1 == m) [(n, s)] = none := by
      have hnm' : (n == m) = false := by
        rw [Bool.eq_false_iff]
        intro hc
        rw [show n = m by simpa using hc] at hnm
        simp at hnm
      simp [List.find?, hnm']
    rw [hlast, Option.or_none]

theorem hasCol_setCol_self (t : Table) (n : String) (s : Series) :
    (t.setCol n s).hasCol n = true := by
  unfold Table.setCol
  by_cases h : t.hasCol n = true
  · rw [if_pos h]
    obtain ⟨x, hxm, hx⟩ := List.any_eq_true.mp h
    exact List.any_eq_true.mpr
      ⟨(x.1, s), List.mem_map.mpr ⟨x, hxm, by rw [if_pos hx]⟩, hx⟩
  · rw [if_neg h]
    exact List.any_eq_true.mpr
      ⟨(n, s), List.mem_append.mpr (Or.inr (List.mem_singleton.mpr rfl)), by simp⟩

theorem hasCol_setCol_mono (t : Table) {m : String} (n : String) (s : Series)
    (h : t.hasCol m = true) : (t.setCol n s).hasCol m = true := by
  unfold Table.setCol
  by_cases hn : t.hasCol n = true
  · rw [if_pos hn]
    obtain ⟨x, hxm, hx⟩ := List.any_eq_true.mp h
    refine List.any_eq_true.mpr
      ⟨if x.1 == n then (x.1, s) else x, List.mem_map.mpr ⟨x, hxm, rfl⟩, ?_⟩
    by_cases hxn : (x.1 == n) = true
    · rw [if_pos hxn]
      exact hx
    · rw [if_neg hxn]
      exact hx
  · rw [if_neg hn]
    obtain ⟨x, hxm, hx⟩ := List.any_eq_true.mp h
    exact List.any_eq_true.mpr ⟨x, List.mem_append.mpr (Or.inl hxm), hx⟩

theorem nRows_setCol (t : Table) (n : String) (s : Series) :
    (t.setCol n s).nRows = t.nRows := by
  unfold Table.setCol
  by_cases h : t.hasCol n = true
  · rw [if_pos h]
  · rw [if_neg h]

theorem getD_mem_of_lt {l : List Cell} {i : Nat} (h : i < l.length) :
    l.getD i none ∈ l := by
  rw [List.getD_eq_getElem?_getD, List.getElem?_eq_getElem h]
  exact List.getElem_mem h

theorem getD_fillFromOther (a b : List Cell) (i : Nat) (hia : i < a.length)
    (hib : i < b.length) :
    (fillFromOther a b).getD i none =
      (if isNullOrBlank (a.getD i none) = true then b.getD i none
       else a.getD i none) := by
  unfold fillFromOther
  induction a generalizing b i with
  | nil => simp at hia
  | cons x xs ih =>
    cases b with
    | nil => simp at hib
    | cons y ys =>
      cases i with
      | zero => rfl
      | succ j =>
        simp only [List.zipWith_cons_cons, List.getD_cons_succ]
        exact ih ys j (by simpa using hia) (by simpa using hib)

theorem length_fillFromOther (a b : List Cell) :
    (fillFromOther a b).length = min a.length b.length := by
  unfold fillFromOther
  exact List.length_zipWith _ _ _


/-- Claim C6: in the key-reconciliation step, if exactly one of `ad_name`,
`ad_set_name` is present the other is synthesized as a copy of it; if both
are present then, row by row, a null-or-blank side whose counterpart is
populated is filled from that counterpart, in both directions. -/
theorem c6_key_reconciliation :
    (∀ t : Table, t.hasCol "ad_name" = false → t.hasCol "ad_set_name" = true →
      (reconcile_keys t).getCol "ad_name" = t.getCol "ad_set_name" ∧
      (reconcile_keys t).getCol "ad_set_name" = t.getCol "ad_set_name") ∧
    (∀ t : Table, t.hasCol "ad_name" = true → t.hasCol "ad_set_name" = false →
      (reconcile_keys t).getCol "ad_set_name" = t.getCol "ad_name" ∧
      (reconcile_keys t).getCol "ad_name" = t.getCol "ad_name") ∧
    (∀ t : Table, t.hasCol "ad_name" = true → t.hasCol "ad_set_name" = true →
      ∀ i : Nat, i < (t.getCol "ad_name").cells.length →
        i < (t.getCol "ad_set_name").cells.length →
        (isNullOrBlank ((t.getCol "ad_name").cells.getD i none) = true →
          isNullOrBlank ((t.getCol "ad_set_name").cells.getD i none) = false →
          ((reconcile_keys t).getCol "ad_name").cells.getD i none =
              (t.getCol "ad_set_name").cells.getD i none ∧
            ((reconcile_keys t).getCol "ad_set_name").cells.getD i none =
              (t.getCol "ad_set_name").cells.getD i none) ∧
        (isNullOrBlank ((t.getCol "ad_name").cells.getD i none) = false →
          isNullOrBlank ((t.getCol "ad_set_name").cells.getD i none) = true →
          ((reconcile_keys t).getCol "ad_set_name").cells.getD i none =
              (t.getCol "ad_name").cells.getD i none ∧
            ((reconcile_keys t).getCol "ad_name").cells.getD i none =
              (t.getCol "ad_name").cells.getD i none)) := by
  refine ⟨?_, ?_, ?_⟩
  · intro t hA hB
    rw [reconcile_keys, if_pos ⟨by simp [hA], hB⟩]
    exact ⟨getCol_setCol_same t _ _, getCol_setCol_other t _ (by decide)⟩
  · intro t hA hB
    rw [reconcile_keys, if_neg (fun hc => hc.1 hA),
      if_pos ⟨hA, by simp [hB]⟩]
    exact ⟨getCol_setCol_same t _ _, getCol_setCol_other t _ (by decide)⟩
  · intro t hA hB i hiA hiB
    rw [reconcile_keys, if_neg (fun hc => hc.1 hA), if_neg (fun hc => hc.2 hB),
      if_pos ⟨hA, hB⟩]
    simp only []
    by_cases h1 : (t.getCol "ad_name").cells.any isNullOrBlank = true
    · rw [if_pos h1, getCol_setCol_other t _ (by decide), getCol_setCol_same t _ _]
      by_cases h2 : (t.getCol "ad_set_name").cells.any isNullOrBlank = true
      · rw [if_pos h2]
        constructor
        · intro hba hbb
          rw [getCol_setCol_same, getCol_setCol_other _ _ (by decide),
            getCol_setCol_same]
          constructor
          · rw [getD_fillFromOther _ _ i hiA hiB, if_pos hba]
          · rw [getD_fillFromOther _ _ i hiB (by
                rw [length_fillFromOther]
                omega),
              if_neg (show ¬ _ = true by rw [hbb]; exact Bool.false_ne_true)]
        · intro hba hbb
          rw [getCol_setCol_same, getCol_setCol_other _ _ (by decide),
            getCol_setCol_same]
          constructor
          · rw [getD_fillFromOther _ _ i hiB (by
                rw [length_fillFromOther]
                omega),
              if_pos hbb, getD_fillFromOther _ _ i hiA hiB,
              if_neg (show ¬ _ = true by rw [hba]; exact Bool.false_ne_true)]
          · rw [getD_fillFromOther _ _ i hiA hiB,
              if_neg (show ¬ _ = true by rw [hba]; exact Bool.false_ne_true)]
      · rw [if_neg h2]
        constructor
        · intro hba hbb
          rw [getCol_setCol_same, getCol_setCol_other t _ (by decide)]
          exact ⟨by rw [getD_fillFromOther _ _ i hiA hiB, if_pos hba], rfl⟩
        · intro hba hbb
          exact absurd (List.any_eq_true.mpr
            ⟨_, getD_mem_of_lt hiB, hbb⟩) h2
    · rw [if_neg h1]
      by_cases h2 : (t.getCol "ad_set_name").cells.any isNullOrBlank = true
      · rw [if_pos h2]
        constructor
        · intro hba hbb
          exact absurd (List.any_eq_true.mpr
            ⟨_, getD_mem_of_lt hiA, hba⟩) h1
        · intro hba hbb
          rw [getCol_setCol_same, getCol_setCol_other t _ (by decide)]
          exact ⟨by rw [getD_fillFromOther _ _ i hiB hiA, if_pos hbb], rfl⟩
      · rw [if_neg h2]
        constructor
        · intro hba hbb
          exact absurd (List.any_eq_true.mpr
            ⟨_, getD_mem_of_lt hiA, hba⟩) h1
        · intro hba hbb
          exact absurd (List.any_eq_true.mpr
            ⟨_, getD_mem_of_lt hiB, hbb⟩) h2

/-- Witness for C6: a two-row table where row 0 has only `ad_name`
populated and row 1 has only `ad_set_name` populated; both blanks are
filled from the populated side. -/
theorem c6_witness :
    ((reconcile_keys
      ⟨2, [("ad_name", ⟨Dtype.obj, [some (CVal.strv "X"), none]⟩),
           ("ad_set_name", ⟨Dtype.obj, [none, some (CVal.strv "Y")]⟩)]⟩).getCol
        "ad_name").cells.getD 1 none = some (CVal.strv "Y") ∧
    ((reconcile_keys
      ⟨2, [("ad_name", ⟨Dtype.obj, [some (CVal.strv "X"), none]⟩),
           ("ad_set_name", ⟨Dtype.obj, [none, some (CVal.strv "Y")]⟩)]⟩).getCol
        "ad_set_name").cells.getD 0 none = some (CVal.strv "X") := by
  have h := c6_key_reconciliation.2.2
    ⟨2, [("ad_name", ⟨Dtype.obj, [some (CVal.strv "X"), none]⟩),
         ("ad_set_name", ⟨Dtype.obj, [none, some (CVal.strv "Y")]⟩)]⟩
    (by decide) (by decide)
  constructor
  · exact (((h 1 (by decide) (by decide)).1 (by decide) (by decide)).1).trans
      (by decide)
  · exact (((h 0 (by decide) (by decide)).2 (by decide) (by decide)).1).trans
      (by decide)


/-- Claim C7 at its failing input: the backfill and the NULL-preserving
numeric/datetime coercions behave as claimed (length is preserved, missing
declared columns are added all-NULL or all-empty-string), but STRING
coercion does **not** render null cells as the empty string: the source
applies `astype(str)` first, which renders a missing cell as the string
"nan", so the following `fillna("")` finds nothing to fill.  Running the
naming preprocessor on a one-row table whose `audience` cell is missing
yields the cell `"nan"`, not `""`. -/
theorem c7_string_coercion_bug :
    (∀ s : Series, (to_numeric_series s).cells.length = s.cells.length ∧
      (to_datetime_series s).cells.length = s.cells.length ∧
      (coerce_string s).cells.length = s.cells.length) ∧
    coerce_string ⟨Dtype.obj, [none]⟩ = ⟨Dtype.obj, [some (CVal.strv "nan")]⟩ ∧
    ((preprocess_naming_data expected_naming_columns
        ⟨1, [("Ad Set Name", ⟨Dtype.obj, [some (CVal.raw ⟨"k1", none, none⟩)]⟩),
             ("Audience", ⟨Dtype.obj, [none]⟩)]⟩ 1).getCol "audience").cells =
      [some (CVal.strv "nan")] ∧
    some (CVal.strv "nan") ≠ emptyStrCell := by
  refine ⟨?_, by decide, by decide, by decide⟩
  intro s
  refine ⟨?_, ?_, ?_⟩
  · show (s.cells.map _).length = _
    rw [List.length_map]
  · show (s.cells.map _).length = _
    rw [List.length_map]
  · show ((s.cells.map _).map _).length = _
    rw [List.length_map, List.length_map]

theorem expand_trace_shape (r : Option (List String)) (alterOk : String → Bool)
    (tableName : String) (df : Table) (excludeColumns : List String) :
    ∀ a ∈ (expand_table_schema r alterOk tableName df excludeColumns).2.2.2,
      (∃ tb, a = SqlAction.describeTable tb) ∨
      (∃ tb col ty, a = SqlAction.alterAddColumn tb col ty) := by
  intro a ha
  rw [expand_table_schema] at ha
  by_cases h1 : (get_table_columns r).isEmpty = true
  · rw [if_pos h1] at ha
    simp only [List.mem_singleton] at ha
    exact Or.inl ⟨tableName, ha⟩
  · rw [if_neg h1] at ha
    by_cases h2 : (expansion_new_columns (get_table_columns r) df
        excludeColumns).isEmpty = true
    · rw [if_pos h2] at ha
      simp only [List.mem_singleton] at ha
      exact Or.inl ⟨tableName, ha⟩
    · rw [if_neg h2] at ha
      simp only [List.mem_append, List.mem_singleton, List.mem_map] at ha
      rcases ha with ha | ⟨col, hcol, rfl⟩
      · exact Or.inl ⟨tableName, by simpa using ha⟩
      · exact Or.inr ⟨tableName, py_upper col, _, rfl⟩

/-- Claim C8: the schema expander returns failure with zero columns added
when destination introspection yields nothing; when introspection succeeds
it attempts one additive ALTER per new column — a failing ALTER is skipped
without aborting the rest — and reports exactly the number of columns whose
ALTER succeeded; and every statement it issues is a DESCRIBE or an additive
ADD COLUMN (never a rename, retype or drop). -/
theorem c8_schema_expander :
    (∀ (r : Option (List String)) (alterOk : String → Bool)
      (tableName : String) (df : Table) (excludeColumns : List String),
      get_table_columns r = [] →
      expand_table_schema r alterOk tableName df excludeColumns =
        (false, EMsg.couldNotReadSchema tableName, 0,
          [SqlAction.describeTable tableName])) ∧
    (∀ (r : Option (List String)) (alterOk : String → Bool)
      (tableName : String) (df : Table) (excludeColumns : List String),
      get_table_columns r ≠ [] →
      (expand_table_schema r alterOk tableName df excludeColumns).1 = true ∧
      (expand_table_schema r alterOk tableName df excludeColumns).2.2.1 =
        (expansion_new_columns (get_table_columns r) df excludeColumns).countP
          alterOk ∧
      ∀ col ∈ expansion_new_columns (get_table_columns r) df excludeColumns,
        ∃ ty, SqlAction.alterAddColumn tableName (py_upper col) ty ∈
          (expand_table_schema r alterOk tableName df excludeColumns).2.2.2) ∧
    (∀ (r : Option (List String)) (alterOk : String → Bool)
      (tableName : String) (df : Table) (excludeColumns : List String),
      ∀ a ∈ (expand_table_schema r alterOk tableName df excludeColumns).2.2.2,
        (∃ tb, a = SqlAction.describeTable tb) ∨
        (∃ tb col ty, a = SqlAction.alterAddColumn tb col ty)) := by
  refine ⟨?_, ?_, expand_trace_shape⟩
  · intro r alterOk tableName df excludeColumns h
    rw [expand_table_schema, if_pos (by rw [h]; rfl)]
  · intro r alterOk tableName df excludeColumns h
    have h1 : ¬ (get_table_columns r).isEmpty = true := by
      rw [List.isEmpty_iff]
      exact h
    rw [expand_table_schema, if_neg h1]
    by_cases h2 : (expansion_new_columns (get_table_columns r) df
        excludeColumns).isEmpty = true
    · rw [if_pos h2]
      have h2' : expansion_new_columns (get_table_columns r) df excludeColumns
          = [] := List.isEmpty_iff.mp h2
      refine ⟨rfl, by rw [h2']; rfl, ?_⟩
      intro col hcol
      rw [h2'] at hcol
      simp at hcol
    · rw [if_neg h2]
      refine ⟨rfl, rfl, ?_⟩
      intro col hcol
      refine ⟨_, List.mem_append.mpr (Or.inr (List.mem_map.mpr ⟨col, hcol, rfl⟩))⟩

/-- Witness for C8: a destination holding only `ad_set_name`, a DataFrame
with one new column `audience` whose ALTER succeeds, and an excluded
timestamp column; exactly one column is added. -/
theorem c8_witness :
    (expand_table_schema (some ["AD_SET_NAME"]) (fun _ => true) "S.T"
      ⟨1, [("ad_set_name", ⟨Dtype.obj, [some (CVal.raw ⟨"k", none, none⟩)]⟩),
           ("audience", ⟨Dtype.obj, [some (CVal.raw ⟨"a", none, none⟩)]⟩),
           ("upload_timestamp", ⟨Dtype.dt64, [some (CVal.dtv 0)]⟩)]⟩
      ["upload_timestamp"]).2.2.1 = 1 ∧
    expand_table_schema none (fun _ => true) "S.T" ⟨0, []⟩ [] =
      (false, EMsg.couldNotReadSchema "S.T", 0,
        [SqlAction.describeTable "S.T"]) := by
  constructor
  · have h := (c8_schema_expander.2.1 (some ["AD_SET_NAME"]) (fun _ => true)
      "S.T"
      ⟨1, [("ad_set_name", ⟨Dtype.obj, [some (CVal.raw ⟨"k", none, none⟩)]⟩),
           ("audience", ⟨Dtype.obj, [some (CVal.raw ⟨"a", none, none⟩)]⟩),
           ("upload_timestamp", ⟨Dtype.dt64, [some (CVal.dtv 0)]⟩)]⟩
      ["upload_timestamp"] (by decide)).2.1
    rw [h]
    decide
  · exact c8_schema_expander.1 none (fun _ => true) "S.T" ⟨0, []⟩ [] (by decide)


theorem prepared_df_hasCols (now : Cell) (df : Table) (wave : Int) :
    (prepared_df now df wave).hasCol "upload_timestamp" = true ∧
    (prepared_df now df wave).hasCol "wave_number" = true := by
  unfold prepared_df add_upload_timestamp ensure_wave_number
  constructor
  · exact hasCol_setCol_self _ _ _
  · by_cases h : df.hasCol "wave_number" = true
    · rw [if_pos h]
      exact hasCol_setCol_mono _ _ _ h
    · rw [if_neg h]
      exact hasCol_setCol_mono _ _ _ (hasCol_setCol_self _ _ _)

theorem populate_campaign_df_eq (env : SessionEnv) (df : Table)
    (schemaName platform : String) (wave : Int) (hconn : env.connOk = true) :
    (populate_campaign_data_table env df schemaName platform wave).df =
      prepared_df env.now df wave := by
  simp only [populate_campaign_data_table]
  rw [if_neg (fun hc => hc hconn)]
  by_cases h1 : (filtered_columns (get_table_columns env.introspect2)
      (prepared_df env.now df wave)).isEmpty = true
  · rw [if_pos h1]
  · rw [if_neg h1]
    by_cases h2 : env.writeOk = true
    · rw [if_neg (fun hc => hc h2)]
      by_cases h3 : env.mergeOk = true
      · rw [if_pos h3]
      · rw [if_neg h3]
    · rw [if_pos h2]

theorem populate_naming_df_eq (env : SessionEnv) (df : Table)
    (schemaName platform : String) (wave : Int) (hconn : env.connOk = true) :
    (populate_naming_keys_table env df schemaName platform wave).df =
      prepared_df env.now df wave := by
  simp only [populate_naming_keys_table]
  rw [if_neg (fun hc => hc hconn)]
  by_cases h1 : (filtered_columns (get_table_columns env.introspect2)
      (prepared_df env.now df wave)).isEmpty = true
  · rw [if_pos h1]
  · rw [if_neg h1]
    by_cases h2 : env.writeOk = true
    · rw [if_neg (fun hc => hc h2)]
      by_cases h3 : env.mergeOk = true
      · rw [if_pos h3]
      · rw [if_neg h3]
    · rw [if_pos h2]

/-- Claim C2: in both upsert operations, once the staging write has
succeeded, the temp-table DROP is attempted on every exit path — whether the
MERGE succeeds or raises — the operation's outcome equals the MERGE's own
outcome (so a failed MERGE surfaces as failure), and the drop's own outcome
cannot change the result (the source only logs it). -/
theorem c2_cleanup_guarantee (env : SessionEnv) (df : Table)
    (schemaName platform : String) (wave : Int)
    (hconn : env.connOk = true) (hwrite : env.writeOk = true)
    (hfilt : filtered_columns (get_table_columns env.introspect2)
      (prepared_df env.now df wave) ≠ []) :
    (SqlAction.dropTempTable
        (campaign_temp_table env.currentDb schemaName platform wave) ∈
        (populate_campaign_data_table env df schemaName platform wave).trace ∧
      (populate_campaign_data_table env df schemaName platform wave).ok =
        env.mergeOk ∧
      ∀ b : Bool,
        populate_campaign_data_table
          { env with dropOk := b } df schemaName platform wave =
          populate_campaign_data_table env df schemaName platform wave) ∧
    (SqlAction.dropTempTable
        (naming_temp_table env.currentDb schemaName platform wave) ∈
        (populate_naming_keys_table env df schemaName platform wave).trace ∧
      (populate_naming_keys_table env df schemaName platform wave).ok =
        env.mergeOk ∧
      ∀ b : Bool,
        populate_naming_keys_table
          { env with dropOk := b } df schemaName platform wave =
          populate_naming_keys_table env df schemaName platform wave) := by
  have hne : ¬ (filtered_columns (get_table_columns env.introspect2)
      (prepared_df env.now df wave)).isEmpty = true := by
    rw [List.isEmpty_iff]
    exact hfilt
  constructor
  · refine ⟨?_, ?_, ?_⟩
    · simp only [populate_campaign_data_table]
      rw [if_neg (fun hc => hc hconn)]
      rw [if_neg hne, if_neg (fun hc => hc hwrite)]
      by_cases hm : env.mergeOk = true
      · rw [if_pos hm]
        simp
      · rw [if_neg hm]
        simp
    · simp only [populate_campaign_data_table]
      rw [if_neg (fun hc => hc hconn)]
      rw [if_neg hne, if_neg (fun hc => hc hwrite)]
      by_cases hm : env.mergeOk = true
      · rw [if_pos hm, hm]
      · rw [if_neg hm, Bool.eq_false_iff.mpr hm]
    · intro b
      rcases env with ⟨c1, c2, c3, c4, c5, c6, c7, c8, c9⟩
      rfl
  · refine ⟨?_, ?_, ?_⟩
    · simp only [populate_naming_keys_table]
      rw [if_neg (fun hc => hc hconn)]
      rw [if_neg hne, if_neg (fun hc => hc hwrite)]
      by_cases hm : env.mergeOk = true
      · rw [if_pos hm]
        simp
      · rw [if_neg hm]
        simp
    · simp only [populate_naming_keys_table]
      rw [if_neg (fun hc => hc hconn)]
      rw [if_neg hne, if_neg (fun hc => hc hwrite)]
      by_cases hm : env.mergeOk = true
      · rw [if_pos hm, hm]
      · rw [if_neg hm, Bool.eq_false_iff.mpr hm]
    · intro b
      rcases env with ⟨c1, c2, c3, c4, c5, c6, c7, c8, c9⟩
      rfl

/-- Witness for C2: a concrete failing MERGE whose temp-table drop is still
attempted, with the failure surfaced. -/
theorem c2_witness :
    SqlAction.dropTempTable (campaign_temp_table "DB" "S" "META" 1) ∈
      (populate_campaign_data_table
        ⟨true, some ["AD_NAME"], some ["ad_name", "wave_number",
          "upload_timestamp"], fun _ => true, "DB", true, false, true, none⟩
        ⟨1, [("ad_name", ⟨Dtype.obj, [some (CVal.raw ⟨"a", none, none⟩)]⟩)]⟩
        "S" "META" 1).trace ∧
    (populate_campaign_data_table
        ⟨true, some ["AD_NAME"], some ["ad_name", "wave_number",
          "upload_timestamp"], fun _ => true, "DB", true, false, true, none⟩
        ⟨1, [("ad_name", ⟨Dtype.obj, [some (CVal.raw ⟨"a", none, none⟩)]⟩)]⟩
        "S" "META" 1).ok = false := by
  have h := (c2_cleanup_guarantee
    ⟨true, some ["AD_NAME"], some ["ad_name", "wave_number",
      "upload_timestamp"], fun _ => true, "DB", true, false, true, none⟩
    ⟨1, [("ad_name", ⟨Dtype.obj, [some (CVal.raw ⟨"a", none, none⟩)]⟩)]⟩
    "S" "META" 1 rfl rfl (by decide)).1
  exact ⟨h.1, h.2.1.trans rfl⟩

/-- Claim C10 counterexample: when no session can be obtained, both upsert
operations return before touching the caller's DataFrame, so a call exists
after which the DataFrame has gained neither column — the claim's "for every
call" is too strong. -/
theorem c10_counterexample :
    (populate_campaign_data_table
      ⟨false, none, none, fun _ => false, "DB", false, false, false, none⟩
      ⟨0, []⟩ "S" "meta" 1).df.hasCol "upload_timestamp" = false ∧
    (populate_naming_keys_table
      ⟨false, none, none, fun _ => false, "DB", false, false, false, none⟩
      ⟨0, []⟩ "S" "meta" 1).df.hasCol "upload_timestamp" = false := by
  constructor
  · decide
  · decide

/-- Claim C10 (amended): whenever a session is available, both upsert
operations mutate the caller's DataFrame in place before writing — it gains
an `upload_timestamp` column and, if absent, a `wave_number` column — and
this happens on every subsequent path, including every failing one. -/
theorem c10_frame_effect (env : SessionEnv) (df : Table)
    (schemaName platform : String) (wave : Int) (hconn : env.connOk = true) :
    ((populate_campaign_data_table env df schemaName platform wave).df.hasCol
        "upload_timestamp" = true ∧
      (populate_campaign_data_table env df schemaName platform wave).df.hasCol
        "wave_number" = true) ∧
    ((populate_naming_keys_table env df schemaName platform wave).df.hasCol
        "upload_timestamp" = true ∧
      (populate_naming_keys_table env df schemaName platform wave).df.hasCol
        "wave_number" = true) := by
  rw [populate_campaign_df_eq env df schemaName platform wave hconn,
    populate_naming_df_eq env df schemaName platform wave hconn]
  exact ⟨prepared_df_hasCols env.now df wave, prepared_df_hasCols env.now df wave⟩

/-- Witness for C10: a call that fails at the MERGE stage still leaves both
columns on the caller's DataFrame. -/
theorem c10_witness :
    (populate_campaign_data_table
      ⟨true, none, none, fun _ => false, "DB", false, false, false, none⟩
      ⟨0, []⟩ "S" "meta" 1).df.hasCol "upload_timestamp" = true ∧
    (populate_naming_keys_table
      ⟨true, none, none, fun _ => false, "DB", false, false, false, none⟩
      ⟨0, []⟩ "S" "meta" 1).df.hasCol "wave_number" = true := by
  have h := c10_frame_effect
    ⟨true, none, none, fun _ => false, "DB", false, false, false, none⟩
    ⟨0, []⟩ "S" "meta" 1 rfl
  exact ⟨h.1.1, h.2.2⟩


theorem save_not_in_expand_trace (r : Option (List String))
    (alterOk : String → Bool) (tableName : String) (df : Table)
    (excl : List String) (tb : String) (cols : List String) :
    SqlAction.saveTempTable tb cols ∉
      (expand_table_schema r alterOk tableName df excl).2.2.2 := by
  intro hmem
  rcases expand_trace_shape r alterOk tableName df excl _ hmem with
    ⟨t2, he⟩ | ⟨t2, c2, ty2, he⟩ <;> simp at he

theorem merge_not_in_expand_trace (r : Option (List String))
    (alterOk : String → Bool) (tableName : String) (df : Table)
    (excl : List String) (a b k : String) (u i : List String) :
    SqlAction.execMerge a b k u i ∉
      (expand_table_schema r alterOk tableName df excl).2.2.2 := by
  intro hmem
  rcases expand_trace_shape r alterOk tableName df excl _ hmem with
    ⟨t2, he⟩ | ⟨t2, c2, ty2, he⟩ <;> simp at he

/-- Claim C9: both upsert operations restrict the staged write to exactly
the columns present (case-insensitively) in both the DataFrame and the
re-introspected destination; DataFrame columns absent from the destination
yield a warning carried in the success message without failing the
operation; and an empty intersection aborts with failure before any staging
write or MERGE is attempted. -/
theorem c9_merge_column_restriction (env : SessionEnv) (df : Table)
    (schemaName platform : String) (wave : Int) (hconn : env.connOk = true) :
    ((∀ (tb : String) (cols : List String),
        SqlAction.saveTempTable tb cols ∈
          (populate_campaign_data_table env df schemaName platform wave).trace →
        cols = filtered_columns (get_table_columns env.introspect2)
          (prepared_df env.now df wave)) ∧
      (filtered_columns (get_table_columns env.introspect2)
          (prepared_df env.now df wave) ≠ [] →
        missing_for_upload (get_table_columns env.introspect2)
          (prepared_df env.now df wave) ≠ [] →
        env.writeOk = true → env.mergeOk = true →
        (populate_campaign_data_table env df schemaName platform wave).ok = true ∧
        (populate_campaign_data_table env df schemaName platform wave).msg =
          PMsg.insertedUpdated
            ((prepared_df env.now df wave).selectCols
              (filtered_columns (get_table_columns env.introspect2)
                (prepared_df env.now df wave))).nRows
            (some (missing_for_upload (get_table_columns env.introspect2)
              (prepared_df env.now df wave)))) ∧
      (filtered_columns (get_table_columns env.introspect2)
          (prepared_df env.now df wave) = [] →
        (populate_campaign_data_table env df schemaName platform wave).ok = false ∧
        (populate_campaign_data_table env df schemaName platform wave).msg =
          PMsg.noMatchingColumns ∧
        (∀ (tb : String) (cols : List String),
          SqlAction.saveTempTable tb cols ∉
            (populate_campaign_data_table env df schemaName platform wave).trace) ∧
        (∀ (a b k : String) (u i : List String),
          SqlAction.execMerge a b k u i ∉
            (populate_campaign_data_table env df schemaName platform wave).trace))) ∧
    ((∀ (tb : String) (cols : List String),
        SqlAction.saveTempTable tb cols ∈
          (populate_naming_keys_table env df schemaName platform wave).trace →
        cols = filtered_columns (get_table_columns env.introspect2)
          (prepared_df env.now df wave)) ∧
      (filtered_columns (get_table_columns env.introspect2)
          (prepared_df env.now df wave) ≠ [] →
        missing_for_upload (get_table_columns env.introspect2)
          (prepared_df env.now df wave) ≠ [] →
        env.writeOk = true → env.mergeOk = true →
        (populate_naming_keys_table env df schemaName platform wave).ok = true ∧
        (populate_naming_keys_table env df schemaName platform wave).msg =
          PMsg.insertedUpdated
            ((prepared_df env.now df wave).selectCols
              (filtered_columns (get_table_columns env.introspect2)
                (prepared_df env.now df wave))).nRows
            (some (missing_for_upload (get_table_columns env.introspect2)
              (prepared_df env.now df wave)))) ∧
      (filtered_columns (get_table_columns env.introspect2)
          (prepared_df env.now df wave) = [] →
        (populate_naming_keys_table env df schemaName platform wave).ok = false ∧
        (populate_naming_keys_table env df schemaName platform wave).msg =
          PMsg.noMatchingColumns ∧
        (∀ (tb : String) (cols : List String),
          SqlAction.saveTempTable tb cols ∉
            (populate_naming_keys_table env df schemaName platform wave).trace) ∧
        (∀ (a b k : String) (u i : List String),
          SqlAction.execMerge a b k u i ∉
            (populate_naming_keys_table env df schemaName platform wave).trace))) := by
  constructor
  · refine ⟨?_, ?_, ?_⟩
    · intro tb cols hmem
      revert hmem
      simp only [populate_campaign_data_table]
      rw [if_neg (fun hc => hc hconn)]
      by_cases h1 : (filtered_columns (get_table_columns env.introspect2)
          (prepared_df env.now df wave)).isEmpty = true
      · rw [if_pos h1]
        intro hmem
        rcases List.mem_append.mp hmem with hm | hm
        · exact absurd hm (save_not_in_expand_trace _ _ _ _ _ _ _)
        · simp at hm
      · rw [if_neg h1]
        by_cases h2 : env.writeOk = true
        · rw [if_neg (fun hc => hc h2)]
          by_cases h3 : env.mergeOk = true
          · rw [if_pos h3]
            intro hmem
            simp only [List.mem_append, List.mem_cons, List.mem_singleton,
              List.not_mem_nil, or_false] at hmem
            rcases hmem with ((hm | hm) | (hm | hm)) | (hm | hm)
            · exact absurd hm (save_not_in_expand_trace _ _ _ _ _ _ _)
            · simp at hm
            · simp at hm
            · simp only [SqlAction.saveTempTable.injEq] at hm
              exact hm.2
            · simp at hm
            · simp at hm
          · rw [if_neg h3]
            intro hmem
            simp only [List.mem_append, List.mem_cons, List.mem_singleton,
              List.not_mem_nil, or_false] at hmem
            rcases hmem with ((hm | hm) | (hm | hm)) | (hm | hm)
            · exact absurd hm (save_not_in_expand_trace _ _ _ _ _ _ _)
            · simp at hm
            · simp at hm
            · simp only [SqlAction.saveTempTable.injEq] at hm
              exact hm.2
            · simp at hm
            · simp at hm
        · rw [if_pos h2]
          intro hmem
          simp only [List.mem_append, List.mem_cons, List.mem_singleton,
            List.not_mem_nil, or_false] at hmem
          rcases hmem with (hm | hm) | (hm | hm)
          · exact absurd hm (save_not_in_expand_trace _ _ _ _ _ _ _)
          · simp at hm
          · simp at hm
          · simp only [SqlAction.saveTempTable.injEq] at hm
            exact hm.2
    · intro hfilt hmiss hwrite hmerge
      have hne : ¬ (filtered_columns (get_table_columns env.introspect2)
          (prepared_df env.now df wave)).isEmpty = true := by
        rw [List.isEmpty_iff]
        exact hfilt
      have hmne : ¬ (missing_for_upload (get_table_columns env.introspect2)
          (prepared_df env.now df wave)).isEmpty = true := by
        rw [List.isEmpty_iff]
        exact hmiss
      simp only [populate_campaign_data_table]
      rw [if_neg (fun hc => hc hconn), if_neg hne,
        if_neg (fun hc => hc hwrite), if_pos hmerge, if_neg hmne]
      exact ⟨rfl, rfl⟩
    · intro hfilt
      have he : (filtered_columns (get_table_columns env.introspect2)
          (prepared_df env.now df wave)).isEmpty = true := by
        rw [hfilt]
        rfl
      simp only [populate_campaign_data_table]
      rw [if_neg (fun hc => hc hconn), if_pos he]
      refine ⟨rfl, rfl, ?_, ?_⟩
      · intro tb cols hmem
        rcases List.mem_append.mp hmem with hm | hm
        · exact absurd hm (save_not_in_expand_trace _ _ _ _ _ _ _)
        · simp at hm
      · intro a b k u i hmem
        rcases List.mem_append.mp hmem with hm | hm
        · exact absurd hm (merge_not_in_expand_trace _ _ _ _ _ _ _ _ _ _)
        · simp at hm
  · refine ⟨?_, ?_, ?_⟩
    · intro tb cols hmem
      revert hmem
      simp only [populate_naming_keys_table]
      rw [if_neg (fun hc => hc hconn)]
      by_cases h1 : (filtered_columns (get_table_columns env.introspect2)
          (prepared_df env.now df wave)).isEmpty = true
      · rw [if_pos h1]
        intro hmem
        rcases List.mem_append.mp hmem with hm | hm
        · exact absurd hm (save_not_in_expand_trace _ _ _ _ _ _ _)
        · simp at hm
      · rw [if_neg h1]
        by_cases h2 : env.writeOk = true
        · rw [if_neg (fun hc => hc h2)]
          by_cases h3 : env.mergeOk = true
          · rw [if_pos h3]
            intro hmem
            simp only [List.mem_append, List.mem_cons, List.mem_singleton,
              List.not_mem_nil, or_false] at hmem
            rcases hmem with ((hm | hm) | (hm | hm)) | (hm | hm)
            · exact absurd hm (save_not_in_expand_trace _ _ _ _ _ _ _)
            · simp at hm
            · simp at hm
            · simp only [SqlAction.saveTempTable.injEq] at hm
              exact hm.2
            · simp at hm
            · simp at hm
          · rw [if_neg h3]
            intro hmem
            simp only [List.mem_append, List.mem_cons, List.mem_singleton,
              List.not_mem_nil, or_false] at hmem
            rcases hmem with ((hm | hm) | (hm | hm)) | (hm | hm)
            · exact absurd hm (save_not_in_expand_trace _ _ _ _ _ _ _)
            · simp at hm
            · simp at hm
            · simp only [SqlAction.saveTempTable.injEq] at hm
              exact hm.2
            · simp at hm
            · simp at hm
        · rw [if_pos h2]
          intro hmem
          simp only [List.mem_append, List.mem_cons, List.mem_singleton,
            List.not_mem_nil, or_false] at hmem
          rcases hmem with (hm | hm) | (hm | hm)
          · exact absurd hm (save_not_in_expand_trace _ _ _ _ _ _ _)
          · simp at hm
          · simp at hm
          · simp only [SqlAction.saveTempTable.injEq] at hm
            exact hm.2
    · intro hfilt hmiss hwrite hmerge
      have hne : ¬ (filtered_columns (get_table_columns env.introspect2)
          (prepared_df env.now df wave)).isEmpty = true := by
        rw [List.isEmpty_iff]
        exact hfilt
      have hmne : ¬ (missing_for_upload (get_table_columns env.introspect2)
          (prepared_df env.now df wave)).isEmpty = true := by
        rw [List.isEmpty_iff]
        exact hmiss
      simp only [populate_naming_keys_table]
      rw [if_neg (fun hc => hc hconn), if_neg hne,
        if_neg (fun hc => hc hwrite), if_pos hmerge, if_neg hmne]
      exact ⟨rfl, rfl⟩
    · intro hfilt
      have he : (filtered_columns (get_table_columns env.introspect2)
          (prepared_df env.now df wave)).isEmpty = true := by
        rw [hfilt]
        rfl
      simp only [populate_naming_keys_table]
      rw [if_neg (fun hc => hc hconn), if_pos he]
      refine ⟨rfl, rfl, ?_, ?_⟩
      · intro tb cols hmem
        rcases List.mem_append.mp hmem with hm | hm
        · exact absurd hm (save_not_in_expand_trace _ _ _ _ _ _ _)
        · simp at hm
      · intro a b k u i hmem
        rcases List.mem_append.mp hmem with hm | hm
        · exact absurd hm (merge_not_in_expand_trace _ _ _ _ _ _ _ _ _ _)
        · simp at hm


theorem sqlEq_refl {c : Cell} (h : c.isSome = true) : sqlEq c c = true := by
  cases c with
  | none => simp at h
  | some x => simp [sqlEq]

theorem sqlEq_eq {a b : Cell} (h : sqlEq a b = true) :
    a = b ∧ a.isSome = true := by
  cases a with
  | none => simp [sqlEq] at h
  | some x =>
    cases b with
    | none => simp [sqlEq] at h
    | some y =>
      simp only [sqlEq, decide_eq_true_eq] at h
      exact ⟨by rw [h], rfl⟩

theorem length_update_row (cols : List String) (key : String) (d s : MRow) :
    (update_row cols key d s).length =
      min cols.length (min d.length s.length) := by
  unfold update_row
  rw [List.length_map, List.length_zip, List.length_zip]

theorem keyVal_update_row (cols : List String) (key : String) {d s : MRow}
    (hd : d.length = cols.length) (hs : s.length = cols.length) :
    keyVal cols key (update_row cols key d s) = keyVal cols key d := by
  induction cols generalizing d s with
  | nil => rfl
  | cons c cs ih =>
    cases d with
    | nil => simp at hd
    | cons x xs =>
      cases s with
      | nil => simp at hs
      | cons y ys =>
        show keyVal (c :: cs) key
          ((if py_lower c == key then x else y) :: update_row cs key xs ys) = _
        unfold keyVal
        by_cases hk : (py_lower c == key) = true
        · rw [List.zip_cons_cons, List.zip_cons_cons,
            List.find?_cons_of_pos (p := fun q : String × Cell => py_lower q.1 == key)
              _ hk,
            List.find?_cons_of_pos (p := fun q : String × Cell => py_lower q.1 == key)
              _ hk]
          show (if (py_lower c == key) = true then x else y) = x
          rw [if_pos hk]
        · rw [List.zip_cons_cons, List.zip_cons_cons,
            List.find?_cons_of_neg (p := fun q : String × Cell => py_lower q.1 == key)
              _ hk,
            List.find?_cons_of_neg (p := fun q : String × Cell => py_lower q.1 == key)
              _ hk]
          exact ih (by simpa using hd) (by simpa using hs)

theorem update_row_self (cols : List String) (key : String) {r : MRow}
    (hr : r.length = cols.length) : update_row cols key r r = r := by
  induction cols generalizing r with
  | nil =>
    have hre : r = [] := List.length_eq_zero.mp (by simpa using hr)
    subst hre
    rfl
  | cons c cs ih =>
    cases r with
    | nil => simp at hr
    | cons x xs =>
      show (if py_lower c == key then x else x) :: update_row cs key xs xs = _
      rw [ite_self, ih (by simpa using hr)]

theorem update_row_idem (cols : List String) (key : String) (d s : MRow) :
    update_row cols key (update_row cols key d s) s = update_row cols key d s := by
  induction cols generalizing d s with
  | nil => rfl
  | cons c cs ih =>
    cases d with
    | nil => rfl
    | cons x xs =>
      cases s with
      | nil => rfl
      | cons y ys =>
        show (if (py_lower c == key) = true then
              (if (py_lower c == key) = true then x else y) else y)
            :: update_row cs key (update_row cs key xs ys) ys =
          (if (py_lower c == key) = true then x else y) :: update_row cs key xs ys
        rw [ih]
        by_cases hk : (py_lower c == key) = true
        · rw [if_pos hk, if_pos hk]
        · rw [if_neg hk, if_neg hk]

theorem find?_sqlEq_self {cols : List String} {key : String} {src : List MRow}
    {b : MRow}
    (hp : src.Pairwise (fun r1 r2 => keyVal cols key r1 ≠ keyVal cols key r2))
    (hb : b ∈ src) (hsome : (keyVal cols key b).isSome = true) :
    src.find? (fun s => sqlEq (keyVal cols key b) (keyVal cols key s)) =
      some b := by
  induction src with
  | nil => simp at hb
  | cons a rest ih =>
    rcases List.mem_cons.mp hb with rfl | hbr
    · exact List.find?_cons_of_pos _ (sqlEq_refl hsome)
    · have hna : keyVal cols key a ≠ keyVal cols key b :=
        (List.pairwise_cons.mp hp).1 b hbr
      rw [List.find?_cons_of_neg]
      · exact ih (List.pairwise_cons.mp hp).2 hbr
      · intro hc
        exact hna ((sqlEq_eq hc).1.symm)

theorem find?_sqlEq_match {cols : List String} {key : String} {src : List MRow}
    {s d : MRow}
    (hp : src.Pairwise (fun r1 r2 => keyVal cols key r1 ≠ keyVal cols key r2))
    (hs : s ∈ src)
    (hds : sqlEq (keyVal cols key d) (keyVal cols key s) = true) :
    src.find? (fun x => sqlEq (keyVal cols key d) (keyVal cols key x)) =
      some s := by
  induction src with
  | nil => simp at hs
  | cons a rest ih =>
    rcases List.mem_cons.mp hs with rfl | hsr
    · exact List.find?_cons_of_pos _ hds
    · have hna : keyVal cols key a ≠ keyVal cols key s :=
        (List.pairwise_cons.mp hp).1 s hsr
      rw [List.find?_cons_of_neg]
      · exact ih (List.pairwise_cons.mp hp).2 hsr
      · intro hc
        have h1 := (sqlEq_eq hc).1
        have h2 := (sqlEq_eq hds).1
        exact hna (h1 ▸ h2)


/-- Claim C1 counterexample: a ProcessedTable row whose key is NULL is never
matched by the MERGE's ON equality (SQL NULL compares unequal to NULL), so
upserting it twice inserts it twice — the claimed idempotence fails for
arbitrary ProcessedTable states. -/
theorem c1_counterexample :
    merge_rows ["ad_name"] "ad_name" [[(none : Cell)]]
      (merge_rows ["ad_name"] "ad_name" [[(none : Cell)]] []) ≠
    merge_rows ["ad_name"] "ad_name" [[(none : Cell)]] [] := by decide

/-- Claim C1 (amended): for every staged ProcessedTable whose rows carry
non-null, pairwise-distinct key values, upserting it twice leaves the
destination in the same state as upserting it once; destination rows whose
key matches no source row pass through unchanged; and when the destination
holds exactly one row for a source row's key, the merged destination still
holds exactly one row for that key, updated with the source row's values. -/
theorem c1_upsert_idempotent (cols : List String) (key : String)
    (src dest : List MRow)
    (hlen_src : ∀ r ∈ src, r.length = cols.length)
    (hlen_dest : ∀ r ∈ dest, r.length = cols.length)
    (hsome : ∀ r ∈ src, (keyVal cols key r).isSome = true)
    (hdist : src.Pairwise
      (fun r1 r2 => keyVal cols key r1 ≠ keyVal cols key r2)) :
    merge_rows cols key src (merge_rows cols key src dest) =
      merge_rows cols key src dest ∧
    (∀ d ∈ dest,
      (∀ s ∈ src, sqlEq (keyVal cols key d) (keyVal cols key s) = false) →
      d ∈ merge_rows cols key src dest) ∧
    (∀ s ∈ src, ∀ d ∈ dest,
      sqlEq (keyVal cols key d) (keyVal cols key s) = true →
      dest.countP
        (fun r => sqlEq (keyVal cols key r) (keyVal cols key s)) = 1 →
      (merge_rows cols key src dest).countP
        (fun r => sqlEq (keyVal cols key r) (keyVal cols key s)) = 1 ∧
      update_row cols key d s ∈ merge_rows cols key src dest) := by
  have hkeymap : ∀ d ∈ dest,
      keyVal cols key
        (match src.find?
            (fun s => sqlEq (keyVal cols key d) (keyVal cols key s)) with
         | some s => update_row cols key d s
         | none => d) = keyVal cols key d := by
    intro d hd
    cases hf : src.find?
        (fun s => sqlEq (keyVal cols key d) (keyVal cols key s)) with
    | none => rfl
    | some s0 =>
      exact keyVal_update_row cols key (hlen_dest d hd)
        (hlen_src s0 (List.mem_of_find?_eq_some hf))
  refine ⟨?_, ?_, ?_⟩
  · conv_lhs => rw [merge_rows]
    have hfilter : src.filter (fun s =>
        ! (merge_rows cols key src dest).any
          (fun d => sqlEq (keyVal cols key d) (keyVal cols key s))) = [] := by
      rw [List.filter_eq_nil_iff]
      intro s hs hpred
      have hany : (merge_rows cols key src dest).any
          (fun d => sqlEq (keyVal cols key d) (keyVal cols key s)) = true := by
        by_cases hm : dest.any
            (fun d => sqlEq (keyVal cols key d) (keyVal cols key s)) = true
        · obtain ⟨d, hd, hds⟩ := List.any_eq_true.mp hm
          refine List.any_eq_true.mpr ⟨_, List.mem_append.mpr (Or.inl
            (List.mem_map.mpr ⟨d, hd, rfl⟩)), ?_⟩
          rw [hkeymap d hd]
          exact hds
        · refine List.any_eq_true.mpr ⟨s, List.mem_append.mpr (Or.inr
            (List.mem_filter.mpr ⟨hs, ?_⟩)), sqlEq_refl (hsome s hs)⟩
          rw [Bool.not_eq_true']
          exact Bool.eq_false_iff.mpr hm
      rw [hany] at hpred
      simp at hpred
    rw [hfilter, List.append_nil]
    have hmap : ∀ x ∈ merge_rows cols key src dest,
        (match src.find?
            (fun s => sqlEq (keyVal cols key x) (keyVal cols key s)) with
         | some s => update_row cols key x s
         | none => x) = x := by
      intro x hx
      rcases List.mem_append.mp hx with hx1 | hx2
      · obtain ⟨d, hd, rfl⟩ := List.mem_map.mp hx1
        cases hf : src.find?
            (fun s => sqlEq (keyVal cols key d) (keyVal cols key s)) with
        | none =>
          simp only [hf]
        | some s0 =>
          have hk := keyVal_update_row cols key (hlen_dest d hd)
            (hlen_src s0 (List.mem_of_find?_eq_some hf))
          simp only [hf, hk]
          exact update_row_idem cols key d s0
      · have hxs : x ∈ src := (List.mem_filter.mp hx2).1
        have hfind := find?_sqlEq_self hdist hxs (hsome x hxs)
        simp only [hfind]
        exact update_row_self cols key (hlen_src x hxs)
    calc (merge_rows cols key src dest).map _
        = (merge_rows cols key src dest).map id := List.map_congr_left hmap
      _ = merge_rows cols key src dest := List.map_id _
  · intro d hd hnomatch
    have hfind : src.find?
        (fun s => sqlEq (keyVal cols key d) (keyVal cols key s)) = none := by
      rw [List.find?_eq_none]
      intro x hx
      rw [hnomatch x hx]
      simp
    refine List.mem_append.mpr (Or.inl (List.mem_map.mpr ⟨d, hd, ?_⟩))
    simp only [hfind]
  · intro s hs d hd hds hcount
    constructor
    · rw [merge_rows, List.countP_append]
      have hmapcount : (dest.map (fun d =>
          match src.find?
              (fun s => sqlEq (keyVal cols key d) (keyVal cols key s)) with
           | some s => update_row cols key d s
           | none => d)).countP
            (fun r => sqlEq (keyVal cols key r) (keyVal cols key s)) =
          dest.countP
            (fun r => sqlEq (keyVal cols key r) (keyVal cols key s)) := by
        rw [List.countP_map]
        refine List.countP_congr ?_
        intro x hx
        show sqlEq (keyVal cols key _) (keyVal cols key s) = true ↔
          sqlEq (keyVal cols key x) (keyVal cols key s) = true
        rw [hkeymap x hx]
      have hinscount : (src.filter (fun t =>
          ! dest.any
            (fun dd => sqlEq (keyVal cols key dd) (keyVal cols key t)))).countP
            (fun r => sqlEq (keyVal cols key r) (keyVal cols key s)) = 0 := by
        rw [List.countP_eq_zero]
        intro t ht hp
        have ht1 := (List.mem_filter.mp ht).1
        have ht2 := (List.mem_filter.mp ht).2
        have hkey : keyVal cols key t = keyVal cols key s := (sqlEq_eq hp).1
        have hany : dest.any
            (fun dd => sqlEq (keyVal cols key dd) (keyVal cols key t)) = true := by
          refine List.any_eq_true.mpr ⟨d, hd, ?_⟩
          rw [hkey]
          exact hds
        rw [Bool.not_eq_true', hany] at ht2
        simp at ht2
      rw [hmapcount, hinscount, hcount]
    · have hfind := find?_sqlEq_match hdist hs hds
      refine List.mem_append.mpr (Or.inl (List.mem_map.mpr ⟨d, hd, ?_⟩))
      simp only [hfind]

/-- Witness for C1 (amended) at a concrete upsert: one source row keyed
"k1" against a destination holding "k1" and "k2"; the merge is idempotent,
"k2" is untouched, and "k1" ends with the source's values, exactly once. -/
theorem c1_witness :
    merge_rows ["ad_name", "spend"] "ad_name"
      [[some (CVal.strv "k1"), some (CVal.num 250)]]
      (merge_rows ["ad_name", "spend"] "ad_name"
        [[some (CVal.strv "k1"), some (CVal.num 250)]]
        [[some (CVal.strv "k1"), some (CVal.num 100)],
         [some (CVal.strv "k2"), some (CVal.num 7)]]) =
      merge_rows ["ad_name", "spend"] "ad_name"
        [[some (CVal.strv "k1"), some (CVal.num 250)]]
        [[some (CVal.strv "k1"), some (CVal.num 100)],
         [some (CVal.strv "k2"), some (CVal.num 7)]] ∧
    (merge_rows ["ad_name", "spend"] "ad_name"
        [[some (CVal.strv "k1"), some (CVal.num 250)]]
        [[some (CVal.strv "k1"), some (CVal.num 100)],
         [some (CVal.strv "k2"), some (CVal.num 7)]]).countP
      (fun r => sqlEq (keyVal ["ad_name", "spend"] "ad_name" r)
        (keyVal ["ad_name", "spend"] "ad_name"
          [some (CVal.strv "k1"), some (CVal.num 250)])) = 1 := by
  have h := c1_upsert_idempotent ["ad_name", "spend"] "ad_name"
    [[some (CVal.strv "k1"), some (CVal.num 250)]]
    [[some (CVal.strv "k1"), some (CVal.num 100)],
     [some (CVal.strv "k2"), some (CVal.num 7)]]
    (by decide) (by decide) (by decide) (by decide)
  refine ⟨h.1, ?_⟩
  exact (h.2.2 _ (List.mem_singleton.mpr rfl)
    [some (CVal.strv "k1"), some (CVal.num 100)]
    (by decide) (by decide) (by decide)).1


/-- Witness for C9: a naming upsert whose DataFrame has one column missing
from the destination succeeds with the warning carried in the message. -/
theorem c9_witness :
    (populate_naming_keys_table
      ⟨true, some ["AD_SET_NAME"],
        some ["ad_set_name", "wave_number", "upload_timestamp"],
        fun _ => true, "DB", true, true, true, none⟩
      ⟨1, [("ad_set_name", ⟨Dtype.obj, [some (CVal.raw ⟨"k", none, none⟩)]⟩),
           ("extra", ⟨Dtype.obj, [some (CVal.raw ⟨"x", none, none⟩)]⟩)]⟩
      "S" "meta" 1).msg = PMsg.insertedUpdated 1 (some ["extra"]) ∧
    (populate_naming_keys_table
      ⟨true, some ["AD_SET_NAME"],
        some ["ad_set_name", "wave_number", "upload_timestamp"],
        fun _ => true, "DB", true, true, true, none⟩
      ⟨1, [("ad_set_name", ⟨Dtype.obj, [some (CVal.raw ⟨"k", none, none⟩)]⟩),
           ("extra", ⟨Dtype.obj, [some (CVal.raw ⟨"x", none, none⟩)]⟩)]⟩
      "S" "meta" 1).ok = true := by
  have h := (c9_merge_column_restriction
    ⟨true, some ["AD_SET_NAME"],
      some ["ad_set_name", "wave_number", "upload_timestamp"],
      fun _ => true, "DB", true, true, true, none⟩
    ⟨1, [("ad_set_name", ⟨Dtype.obj, [some (CVal.raw ⟨"k", none, none⟩)]⟩),
         ("extra", ⟨Dtype.obj, [some (CVal.raw ⟨"x", none, none⟩)]⟩)]⟩
    "S" "meta" 1 rfl).2.2.1 (by decide) (by decide) rfl rfl
  exact ⟨h.2.trans (by decide), h.1⟩

end Spark
